import Mathlib

/-!
Shallow embedding of the AutoMatch marketplace core (matching, settlement,
delivery/escrow, pricing) and proofs of the specification's claims about it.

Records are embedded as Lean structures; the MongoDB store is a `Store` of
lists kept in insertion (creation) order, so "earliest created" coincides with
list order.  Monetary amounts are exact rationals; timestamps are integers.
MongoDB comparison operators (`$lte`, `$gte`) do not match documents in which
the queried field is absent, which is reflected by `Option` fields that only
satisfy a comparison when they are `some`.
-/

namespace AutoMatch

/-- `status` enum of models/BuyerOffer.js. -/
inductive OfferStatus
  | active | matched | expired | cancelled | completed
deriving DecidableEq

/-- `status` enum of models/SellerListing.js. -/
inductive ListingStatus
  | draft | active | matched | sold | expired | cancelled
deriving DecidableEq

/-- `deliveryStatus` enum of models/Transaction.js. -/
inductive DeliveryStatus
  | pending | transferred | confirmed | disputed | failed
deriving DecidableEq

/-- `escrowStatus` enum of models/Transaction.js. -/
inductive EscrowStatus
  | held | released | refunded
deriving DecidableEq

/-- `payoutStatus` enum of models/Transaction.js. -/
inductive PayoutStatus
  | pending | scheduled | processing | completed | failed
deriving DecidableEq

/-- `autoSell` sub-document of models/SellerListing.js. -/
structure AutoSell where
  enabled : Bool
  triggerTime : Option ℤ
  acceptHighestOffer : Bool
deriving DecidableEq

/-- models/BuyerOffer.js (the fields used by the core). -/
structure BuyerOffer where
  id : ℕ
  buyer : ℕ
  event : ℕ
  sections : List String
  maxPrice : ℚ
  quantity : ℕ
  paymentIntentId : ℕ
  status : OfferStatus
  matchedListing : Option ℕ
  matchedAt : Option ℤ
  expiresAt : ℤ
deriving DecidableEq

/-- models/SellerListing.js (the fields used by the core). -/
structure SellerListing where
  id : ℕ
  seller : ℕ
  event : ℕ
  sect : String
  row : Option String
  seats : List String
  quantity : ℕ
  askingPrice : Option ℚ
  minimumAcceptablePrice : Option ℚ
  isLive : Bool
  goLiveAt : Option ℤ
  autoSell : AutoSell
  status : ListingStatus
  deliveryMethod : String
deriving DecidableEq

/-- models/Transaction.js (the fields used by the core). -/
structure Transaction where
  buyer : ℕ
  seller : ℕ
  buyerOffer : ℕ
  sellerListing : Option ℕ
  event : ℕ
  quantity : ℕ
  sect : String
  row : Option String
  seats : List String
  salePrice : ℚ
  buyerPaid : ℚ
  sellerFee : ℚ
  sellerPayout : ℚ
  deliveryMethod : String
  deliveryStatus : DeliveryStatus
  transferredAt : Option ℤ
  confirmedAt : Option ℤ
  escrowStatus : EscrowStatus
  escrowReleaseDate : Option ℤ
  payoutStatus : PayoutStatus
  hasDispute : Bool
  disputeReason : Option String
deriving DecidableEq

/-- The MongoDB collections, each in insertion (creation) order. -/
structure Store where
  offers : List BuyerOffer
  listings : List SellerListing
  transactions : List Transaction
deriving DecidableEq

/-- The empty database. -/
def Store.init : Store := ⟨[], [], []⟩

/-! ### Stable best-element selection

A MongoDB `find(...).sort(key)` followed by taking element `[0]` returns the
first document, in stored order, whose key is minimal.  `selectFirstMin`
computes exactly that element; descending sorts (`sort('-key')`) are the same
with the key negated. -/

/-- First element of `xs` realizing the minimum of `key` (ties: earliest wins). -/
def selectFirstMin (key : α → ℚ) : List α → Option α
  | [] => none
  | x :: xs =>
    match selectFirstMin key xs with
    | none => some x
    | some y => if key y < key x then some y else some x

theorem selectFirstMin_eq_none (key : α → ℚ) (xs : List α) :
    selectFirstMin key xs = none ↔ xs = [] := by
  cases xs with
  | nil => simp [selectFirstMin]
  | cons x xs =>
    simp only [selectFirstMin]
    cases h : selectFirstMin key xs with
    | none => simp
    | some y =>
      constructor
      · intro hc
        by_cases hlt : key y < key x <;> simp [hlt] at hc
      · intro hc
        exact absurd hc (List.cons_ne_nil x xs)

/-- Characterization of `selectFirstMin`: the result splits the list as
`l1 ++ b :: l2` where every earlier element is strictly larger and every later
element is at least as large — i.e. `b` is the minimum with earliest-wins
tie-breaking. -/
theorem selectFirstMin_spec (key : α → ℚ) (xs : List α) (b : α)
    (h : selectFirstMin key xs = some b) :
    ∃ l1 l2, xs = l1 ++ b :: l2 ∧ (∀ a ∈ l1, key b < key a) ∧
      (∀ a ∈ l2, key b ≤ key a) := by
  induction xs generalizing b with
  | nil => simp [selectFirstMin] at h
  | cons x xs ih =>
    simp only [selectFirstMin] at h
    cases hx : selectFirstMin key xs with
    | none =>
      rw [hx] at h
      obtain rfl : x = b := by simpa using h
      have : xs = [] := (selectFirstMin_eq_none key xs).mp hx
      subst this
      exact ⟨[], [], by simp⟩
    | some y =>
      rw [hx] at h
      obtain ⟨l1, l2, hsplit, hbefore, hafter⟩ := ih y hx
      by_cases hlt : key y < key x
      · simp only [hlt, if_true] at h
        obtain rfl : y = b := by simpa using h
        refine ⟨x :: l1, l2, by simp [hsplit], ?_, hafter⟩
        intro a ha
        rcases List.mem_cons.mp ha with rfl | ha
        · exact hlt
        · exact hbefore a ha
      · simp only [hlt, if_false] at h
        obtain rfl : x = b := by simpa using h
        have hxy : key x ≤ key y := le_of_not_lt hlt
        refine ⟨[], xs, by simp, by simp, ?_⟩
        intro a ha
        rw [hsplit] at ha
        rcases List.mem_append.mp ha with ha | ha
        · exact le_of_lt (lt_of_le_of_lt hxy (hbefore a ha))
        · rcases List.mem_cons.mp ha with rfl | ha
          · exact hxy
          · exact hxy.trans (hafter a ha)

/-! ### Matching predicate and selector (services/matchingService.js) -/

/-- The `SellerListing.find` query of `checkForInstantMatch`: same event,
section among the offer's sections, status `active` with `isLive`, quantity at
most the offer's quantity, and `minimumAcceptablePrice ≤ maxPrice`.  A listing
whose `minimumAcceptablePrice` is absent does not satisfy the `$lte` clause. -/
def instantMatchCandidate (o : BuyerOffer) (l : SellerListing) : Bool :=
  l.event == o.event && o.sections.contains l.sect &&
  l.status == ListingStatus.active && l.isLive &&
  decide (l.quantity ≤ o.quantity) &&
  (match l.minimumAcceptablePrice with
   | some m => decide (m ≤ o.maxPrice)
   | none => false)

/-- Sort key of `.sort('minimumAcceptablePrice')`. -/
def minKey (l : SellerListing) : ℚ := l.minimumAcceptablePrice.getD 0

/-- `checkForInstantMatch`'s chosen listing: first element of the candidate
query sorted ascending by `minimumAcceptablePrice`. -/
def bestInstantListing (s : Store) (o : BuyerOffer) : Option SellerListing :=
  selectFirstMin minKey (s.listings.filter (instantMatchCandidate o))

/-- Modelled from the spec: the settlement unit `createMatch` of
services/transactionService.js is imported by services/matchingService.js but
its implementation is not among the sources.  Per spec §4.3 and §5 it
atomically re-reads the offer and listing, aborts with a conflict unless both
are still `active`, creates the Transaction with `salePrice = offer.maxPrice`,
`sellerFee` = 10% of the sale price, `sellerPayout` the remaining 90%, and
transitions offer and listing to `matched`. -/
def createMatch (now : ℤ) (s : Store) (offerId listingId : ℕ) :
    Store × Except String Transaction :=
  match s.offers.find? (fun o => o.id == offerId),
        s.listings.find? (fun l => l.id == listingId) with
  | some o, some l =>
    if o.status = .active ∧ l.status = .active then
      let tx : Transaction :=
        { buyer := o.buyer, seller := l.seller, buyerOffer := o.id,
          sellerListing := some l.id, event := o.event, quantity := l.quantity,
          sect := l.sect, row := l.row, seats := l.seats,
          salePrice := o.maxPrice, buyerPaid := o.maxPrice,
          sellerFee := o.maxPrice * (1 / 10),
          sellerPayout := o.maxPrice * (9 / 10),
          deliveryMethod := l.deliveryMethod,
          deliveryStatus := .pending, transferredAt := none, confirmedAt := none,
          escrowStatus := .held, escrowReleaseDate := none,
          payoutStatus := .pending, hasDispute := false, disputeReason := none }
      ({ offers := s.offers.map fun x =>
           if x.id == offerId then
             { x with status := .matched, matchedListing := some l.id,
                      matchedAt := some now }
           else x,
         listings := s.listings.map fun x =>
           if x.id == listingId then { x with status := .matched } else x,
         transactions := s.transactions ++ [tx] }, .ok tx)
    else (s, .error "conflict: offer or listing no longer active")
  | _, _ => (s, .error "offer or listing not found")

/-- `checkForInstantMatch(buyerOffer)`: query matching listings sorted by
minimum price and, if any, settle against the best one. -/
def checkForInstantMatch (now : ℤ) (s : Store) (o : BuyerOffer) : Store :=
  match bestInstantListing s o with
  | some b => (createMatch now s o.id b.id).1
  | none => s

/-- The `BuyerOffer.find` query of `findBestOfferForListing`: same event,
listing's section among the offer's sections, status `active`, quantity at
least the listing's quantity.  The source query contains no price condition. -/
def autoSellOfferCandidate (l : SellerListing) (o : BuyerOffer) : Bool :=
  o.event == l.event && o.sections.contains l.sect &&
  o.status == OfferStatus.active && decide (l.quantity ≤ o.quantity)

/-- The offer `findBestOfferForListing` picks: first element of the candidate
query sorted descending by `maxPrice` (`sort('-maxPrice')`). -/
def bestOfferForListing (s : Store) (l : SellerListing) : Option BuyerOffer :=
  selectFirstMin (fun o => -o.maxPrice) (s.offers.filter (autoSellOfferCandidate l))

/-- `findBestOfferForListing(listing)`: if the query is non-empty and the
listing accepts the highest offer, settle against the best offer. -/
def findBestOfferForListing (now : ℤ) (s : Store) (l : SellerListing) : Store :=
  match bestOfferForListing s l with
  | some o =>
    if l.autoSell.acceptHighestOffer then (createMatch now s o.id l.id).1 else s
  | none => s

/-- The `SellerListing.find` query of `processAutoSellListings`: auto-sell
enabled, `triggerTime ≤ now` (absent trigger times do not match `$lte`), and
status `active`. -/
def autoSellEligible (now : ℤ) (l : SellerListing) : Bool :=
  l.autoSell.enabled &&
  (match l.autoSell.triggerTime with
   | some tt => decide (tt ≤ now)
   | none => false) &&
  l.status == ListingStatus.active

/-- One iteration of the auto-sell sweep for a single listing. -/
def processAutoSellListing (now : ℤ) (s : Store) (l : SellerListing) : Store :=
  if autoSellEligible now l then findBestOfferForListing now s l else s

/-- `processAutoSellListings()`: query eligible listings, then process each in
turn against the evolving store. -/
def processAutoSellListings (now : ℤ) (s : Store) : Store :=
  (s.listings.filter (autoSellEligible now)).foldl (findBestOfferForListing now) s

/-! ### Direct settlement (sellerListingController.acceptOffer) -/

/-- `acceptOffer`: inside one Mongo session, re-read the offer and abort unless
its status is still `active` and the requested section is among the offer's
sections; create the history listing (status `matched`), mark the offer
matched, create the Transaction with the 10%/90% fee split, then capture the
payment.  If capture throws, the session aborts and no write survives, which
is modelled by returning the input store unchanged.  `captureOk` is the
outcome of the external `stripe.paymentIntents.capture` call. -/
def acceptOfferRun (captureOk : Bool) (now : ℤ)
    (sellerId offerId newListingId : ℕ) (sec : String) (row : Option String)
    (seats : List String) (deliveryMethod : String) (s : Store) :
    Store × Except String Transaction :=
  match s.offers.find? (fun o => o.id == offerId) with
  | none => (s, .error "Offer not available")
  | some o =>
    if o.status = .active then
      if o.sections.contains sec then
        let listing : SellerListing :=
          { id := newListingId, seller := sellerId, event := o.event,
            sect := sec, row := row, seats := seats, quantity := o.quantity,
            askingPrice := some o.maxPrice, minimumAcceptablePrice := none,
            isLive := false, goLiveAt := none,
            autoSell := { enabled := false, triggerTime := none,
                          acceptHighestOffer := true },
            status := .matched, deliveryMethod := deliveryMethod }
        let o' : BuyerOffer :=
          { o with status := .matched, matchedListing := some newListingId,
                   matchedAt := some now }
        let tx : Transaction :=
          { buyer := o.buyer, seller := sellerId, buyerOffer := o.id,
            sellerListing := some newListingId, event := o.event,
            quantity := o.quantity, sect := sec, row := row, seats := seats,
            salePrice := o.maxPrice, buyerPaid := o.maxPrice,
            sellerFee := o.maxPrice * (1 / 10),
            sellerPayout := o.maxPrice * (9 / 10),
            deliveryMethod := deliveryMethod,
            deliveryStatus := .pending, transferredAt := none,
            confirmedAt := none, escrowStatus := .held,
            escrowReleaseDate := none, payoutStatus := .pending,
            hasDispute := false, disputeReason := none }
        if captureOk then
          ({ offers := s.offers.map fun x => if x.id == offerId then o' else x,
             listings := s.listings ++ [listing],
             transactions := s.transactions ++ [tx] }, .ok tx)
        else (s, .error "capture failed")
      else (s, .error "Section not in buyer preferences")
    else (s, .error "Offer not available")

/-! ### Listing edits and offer cancellation (controllers) -/

/-- The body fields `updateListing` copies when present (`!== undefined`).
`goLiveAt` distinguishes a truthy supplied value (`some (some d)`) from a
supplied falsy value such as `null` (`some none`): both assign the field, but
only a truthy value triggers the status reset. -/
structure ListingUpdateReq where
  sect : Option String := none
  row : Option (Option String) := none
  seats : Option (List String) := none
  quantity : Option ℕ := none
  askingPrice : Option ℚ := none
  minimumAcceptablePrice : Option ℚ := none
  deliveryMethod : Option String := none
  goLiveAt : Option (Option ℤ) := none
  autoSell : Option AutoSell := none
deriving DecidableEq

/-- The `allowedUpdates.forEach` assignment loop of `updateListing`. -/
def applyListingUpdate (u : ListingUpdateReq) (l : SellerListing) : SellerListing :=
  { l with
    sect := u.sect.getD l.sect,
    row := u.row.getD l.row,
    seats := u.seats.getD l.seats,
    quantity := u.quantity.getD l.quantity,
    askingPrice := (u.askingPrice.map some).getD l.askingPrice,
    minimumAcceptablePrice :=
      (u.minimumAcceptablePrice.map some).getD l.minimumAcceptablePrice,
    deliveryMethod := u.deliveryMethod.getD l.deliveryMethod,
    goLiveAt := u.goLiveAt.getD l.goLiveAt,
    autoSell := u.autoSell.getD l.autoSell }

/-- `updateListing`: look up the seller's listing, refuse when its status is
`matched` or `sold`, otherwise copy the supplied fields and, when a truthy
`goLiveAt` was supplied, reset the listing to a non-live draft. -/
def updateListing (sellerId listingId : ℕ) (u : ListingUpdateReq) (s : Store) :
    Store × Except String Unit :=
  match s.listings.find? (fun l => l.id == listingId && l.seller == sellerId) with
  | none => (s, .error "Listing not found")
  | some l =>
    if l.status = .matched ∨ l.status = .sold then
      (s, .error "Cannot update listing in current status")
    else
      let l1 := applyListingUpdate u l
      let l2 := match u.goLiveAt with
        | some (some _) => { l1 with status := .draft, isLive := false }
        | _ => l1
      ({ s with listings :=
           s.listings.map fun x => if x.id == listingId then l2 else x },
       .ok ())

/-- `deleteListing`: refuse when `matched` or `sold`, otherwise soft-delete by
setting status `cancelled`. -/
def deleteListing (sellerId listingId : ℕ) (s : Store) :
    Store × Except String Unit :=
  match s.listings.find? (fun l => l.id == listingId && l.seller == sellerId) with
  | none => (s, .error "Listing not found")
  | some l =>
    if l.status = .matched ∨ l.status = .sold then
      (s, .error "Cannot delete listing in current status")
    else
      ({ s with listings :=
           s.listings.map fun x =>
             if x.id == listingId then { l with status := .cancelled } else x },
       .ok ())

/-- `goLive`: look up the seller's draft listing, refuse when the event is no
longer upcoming, otherwise make it live.  The subsequent
`checkForInstantMatchForListing` helper performs no state change: its
auto-match branch is an unimplemented comment in the source. -/
def goLive (now : ℤ) (eventUpcoming : Bool) (sellerId listingId : ℕ)
    (s : Store) : Store × Except String Unit :=
  match s.listings.find? (fun l =>
      l.id == listingId && l.seller == sellerId &&
      l.status == ListingStatus.draft) with
  | none => (s, .error "Draft listing not found")
  | some l =>
    if eventUpcoming then
      ({ s with listings :=
           s.listings.map fun x =>
             if x.id == listingId then
               { l with status := .active, isLive := true, goLiveAt := some now }
             else x },
       .ok ())
    else (s, .error "Event has already passed")

/-- `cancelOffer` (buyerOfferController): look up the buyer's active offer,
cancel the payment hold and set status `cancelled`. -/
def cancelOffer (buyerId offerId : ℕ) (s : Store) : Store × Except String Unit :=
  match s.offers.find? (fun o =>
      o.id == offerId && o.buyer == buyerId &&
      o.status == OfferStatus.active) with
  | none => (s, .error "Offer not found")
  | some o =>
    ({ s with offers :=
         s.offers.map fun x =>
           if x.id == offerId then { o with status := .cancelled } else x },
     .ok ())

/-! ### Pricing engine (services/pricingEngine.js)

`calculateAcceptanceProbability` divides by `event.marketStats.averagePrice`
with no zero/absence guard; in JavaScript `0 / 0` and `x / undefined` are
`NaN`, `x / 0` is signed infinity for `x ≠ 0`, and `Math.max`/`Math.min`
propagate `NaN`.  `JsNum` captures exactly the values this expression can
take. -/

/-- A JavaScript number as produced by the pricing expressions: `NaN`, signed
infinity, or a finite value (kept exact as a rational). -/
inductive JsNum
  | nan
  | inf
  | ninf
  | num (q : ℚ)
deriving DecidableEq

/-- JavaScript division `price / avg` where `avg` is
`event.marketStats.averagePrice` (absent field gives `undefined`). -/
def jsDiv (price : ℚ) (avg : Option ℚ) : JsNum :=
  match avg with
  | none => .nan
  | some a =>
    if a = 0 then
      if price = 0 then .nan else if 0 < price then .inf else .ninf
    else .num (price / a)

/-- `50 + (r - 1) * 100` lifted to JavaScript numbers: finite affine maps with
positive slope preserve infinities and `NaN`. -/
def jsAffine (r : JsNum) : JsNum :=
  match r with
  | .nan => .nan
  | .inf => .inf
  | .ninf => .ninf
  | .num q => .num (50 + (q - 1) * 100)

/-- `Math.max(10, v)`: propagates `NaN`. -/
def jsMax10 (v : JsNum) : JsNum :=
  match v with
  | .nan => .nan
  | .inf => .inf
  | .ninf => .num 10
  | .num q => .num (max 10 q)

/-- `Math.min(95, v)`: propagates `NaN`. -/
def jsMin95 (v : JsNum) : JsNum :=
  match v with
  | .nan => .nan
  | .inf => .num 95
  | .ninf => .ninf
  | .num q => .num (min 95 q)

/-- `calculateAcceptanceProbability(price, event, sections)`:
`Math.min(95, Math.max(10, 50 + (price / event.marketStats.averagePrice - 1) * 100))`. -/
def calculateAcceptanceProbability (price : ℚ) (averagePrice : Option ℚ) : JsNum :=
  jsMin95 (jsMax10 (jsAffine (jsDiv price averagePrice)))

/-- `reduce((sum, x) => sum + x, 0) / length || 0`: the mean, with the empty
case (`0 / 0 = NaN`, and `NaN || 0` is `0`) collapsing to `0`. -/
def meanOr0 (xs : List ℚ) : ℚ :=
  if xs = [] then 0 else xs.sum / xs.length

/-- The `BuyerOffer.find` query of `calculateSuggestedPrice`: active offers on
the event whose section set meets the requested sections (`$in`). -/
def pricingOfferQuery (eventId : ℕ) (sections : List String) (o : BuyerOffer) : Bool :=
  o.event == eventId && o.status == OfferStatus.active &&
  o.sections.any (fun c => sections.contains c)

/-- The `Transaction.find` query of `calculateSuggestedPrice`: transactions on
the event in one of the requested sections (no completion filter is applied). -/
def pricingTxQuery (eventId : ℕ) (sections : List String) (t : Transaction) : Bool :=
  t.event == eventId && sections.contains t.sect

/-- `calculateSuggestedPrice`: mean active-offer price and mean sale price
(each `0` when its set is empty), suggested price
`max(avgOffer * 1.1, avgSale * 0.95)` capped at the caller's `maxPrice`, and
the acceptance probability computed from the uncapped suggested price. -/
def calculateSuggestedPrice (s : Store) (averagePrice : Option ℚ)
    (eventId : ℕ) (sections : List String) (maxPrice : ℚ) : ℚ × JsNum :=
  let avgOfferPrice :=
    meanOr0 ((s.offers.filter (pricingOfferQuery eventId sections)).map (·.maxPrice))
  let avgSalePrice :=
    meanOr0 ((s.transactions.filter (pricingTxQuery eventId sections)).map (·.salePrice))
  let suggestedPrice := max (avgOfferPrice * (11 / 10)) (avgSalePrice * (19 / 20))
  (min suggestedPrice maxPrice,
   calculateAcceptanceProbability suggestedPrice averagePrice)

/-! ### Delivery / escrow / payout sub-machine (buyerOfferController,
sellerListingController.transferTickets) -/

/-- `transferTickets`: only a transaction whose `deliveryStatus` is `pending`
matches the lookup; it becomes `transferred`. -/
def transferTickets (now : ℤ) (t : Transaction) : Except String Transaction :=
  if t.deliveryStatus = .pending then
    .ok { t with deliveryStatus := .transferred, transferredAt := some now }
  else .error "Transaction not found or already transferred"

/-- `processSellerPayout`: issue a Stripe transfer when the seller has a
connected account; on success `payoutStatus := completed`, on a gateway error
`payoutStatus := failed`; with no connected account nothing happens. -/
def processSellerPayout (hasConnectAccount transferOk : Bool)
    (t : Transaction) : Transaction :=
  if hasConnectAccount then
    if transferOk then { t with payoutStatus := .completed }
    else { t with payoutStatus := .failed }
  else t

/-- `confirmDelivery`: only a `transferred` transaction matches the lookup;
confirmation is refused after the event date; on success the delivery is
`confirmed`, escrow is `released`, and the seller payout is processed.  A
payout failure is reported to the caller but the confirmed/released state has
already been saved, so the resulting record is returned in every guard-passing
case. -/
def confirmDelivery (now eventDate : ℤ) (hasConnectAccount transferOk : Bool)
    (t : Transaction) : Except String Transaction :=
  if t.deliveryStatus = .transferred then
    if eventDate < now then
      .error "Cannot confirm delivery after event has passed"
    else
      .ok (processSellerPayout hasConnectAccount transferOk
        { t with deliveryStatus := .confirmed, confirmedAt := some now,
                 escrowStatus := .released, escrowReleaseDate := some now })
  else .error "Transaction not found or not ready for confirmation"

/-- The `validReasons` array of `disputeTransaction`. -/
def validReasons : List String :=
  ["tickets_not_received", "invalid_tickets", "wrong_section",
   "wrong_quantity", "event_cancelled", "other"]

/-- `disputeTransaction`: the reason must be valid, the lookup only matches
`deliveryStatus ∈ {pending, transferred}`, an existing dispute is refused, and
disputing after the event date is refused; on success the transaction is
marked disputed and escrow is (re-)held. -/
def disputeTransaction (now eventDate : ℤ) (reason : String)
    (t : Transaction) : Except String Transaction :=
  if validReasons.contains reason then
    if t.deliveryStatus = .pending ∨ t.deliveryStatus = .transferred then
      if t.hasDispute then
        .error "Transaction already has an active dispute"
      else if eventDate < now then
        .error "Cannot dispute transaction after event date"
      else
        .ok { t with hasDispute := true, disputeReason := some reason,
                     deliveryStatus := .disputed, escrowStatus := .held }
    else .error "Transaction not found or cannot be disputed"
  else .error "Invalid dispute reason"

/-! ### The system's reachable states

One step is one of the core handlers: record creation (with a fresh id, as
Mongo ObjectIds are unique), the instant-match hook, one auto-sell sweep
iteration, direct offer acceptance, listing edits, offer cancellation, and any
delivery-side transaction update (which never rewrites the offer/listing
references of a settlement record). -/

inductive Step : Store → Store → Prop
  | createOffer (s : Store) (o : BuyerOffer)
      (hst : o.status = .active)
      (hfresh : ∀ o' ∈ s.offers, o'.id ≠ o.id) :
      Step s { s with offers := s.offers ++ [o] }
  | createListing (s : Store) (l : SellerListing)
      (hst : l.status = .draft ∨ l.status = .active)
      (hfresh : ∀ l' ∈ s.listings, l'.id ≠ l.id) :
      Step s { s with listings := s.listings ++ [l] }
  | instantMatch (s : Store) (now : ℤ) (o : BuyerOffer) (ho : o ∈ s.offers) :
      Step s (checkForInstantMatch now s o)
  | autoSell (s : Store) (now : ℤ) (l : SellerListing) (hl : l ∈ s.listings) :
      Step s (processAutoSellListing now s l)
  | accept (s : Store) (captureOk : Bool) (now : ℤ)
      (sellerId offerId newListingId : ℕ) (sec : String) (row : Option String)
      (seats : List String) (dm : String)
      (hfresh : ∀ l ∈ s.listings, l.id ≠ newListingId) :
      Step s (acceptOfferRun captureOk now sellerId offerId newListingId
        sec row seats dm s).1
  | update (s : Store) (sellerId listingId : ℕ) (u : ListingUpdateReq) :
      Step s (updateListing sellerId listingId u s).1
  | delete (s : Store) (sellerId listingId : ℕ) :
      Step s (deleteListing sellerId listingId s).1
  | live (s : Store) (now : ℤ) (up : Bool) (sellerId listingId : ℕ) :
      Step s (goLive now up sellerId listingId s).1
  | cancel (s : Store) (buyerId offerId : ℕ) :
      Step s (cancelOffer buyerId offerId s).1
  | txUpdate (s : Store) (g : Transaction → Transaction)
      (hg : ∀ t, (g t).buyerOffer = t.buyerOffer ∧
                 (g t).sellerListing = t.sellerListing) :
      Step s { s with transactions := s.transactions.map g }

/-- States reachable from the empty database. -/
inductive Reachable : Store → Prop
  | init : Reachable Store.init
  | step {s s'} : Reachable s → Step s s' → Reachable s'

/-- The settlement invariant: transaction references are unique (no offer and
no listing is referenced by two committed transactions), every reference
resolves, and every referenced offer/listing is in status `matched`. -/
structure Inv (s : Store) : Prop where
  offerRefsNodup : (s.transactions.map (·.buyerOffer)).Nodup
  listingRefsNodup : (s.transactions.filterMap (·.sellerListing)).Nodup
  offerRefExists : ∀ t ∈ s.transactions, ∃ o ∈ s.offers, o.id = t.buyerOffer
  offerRefMatched : ∀ t ∈ s.transactions, ∀ o ∈ s.offers,
    o.id = t.buyerOffer → o.status = .matched
  listingRefExists : ∀ t ∈ s.transactions, ∀ lid, t.sellerListing = some lid →
    ∃ l ∈ s.listings, l.id = lid
  listingRefMatched : ∀ t ∈ s.transactions, ∀ lid, t.sellerListing = some lid →
    ∀ l ∈ s.listings, l.id = lid → l.status = .matched

/-! ### The per-transaction delivery/escrow/payout machine -/

inductive TxStep (eventDate : ℤ) : Transaction → Transaction → Prop
  | transfer (now : ℤ) {t t' : Transaction} :
      transferTickets now t = .ok t' → TxStep eventDate t t'
  | confirm (now : ℤ) (hc tok : Bool) {t t' : Transaction} :
      confirmDelivery now eventDate hc tok t = .ok t' → TxStep eventDate t t'
  | dispute (now : ℤ) (reason : String) {t t' : Transaction} :
      disputeTransaction now eventDate reason t = .ok t' → TxStep eventDate t t'

inductive TxReachable (eventDate : ℤ) (t0 : Transaction) : Transaction → Prop
  | init : TxReachable eventDate t0 t0
  | step {t t'} : TxReachable eventDate t0 t → TxStep eventDate t t' →
      TxReachable eventDate t0 t'

/-! ### Invariant preservation helpers -/

theorem map_key_map_eq {α β : Type} (g : α → α) (f : α → β)
    (h : ∀ x, f (g x) = f x) (xs : List α) : (xs.map g).map f = xs.map f := by
  rw [List.map_map]
  exact List.map_congr_left (fun a _ => h a)

theorem exists_key_map {α : Type} (g : α → α) (f : α → ℕ)
    (h : ∀ x, f (g x) = f x) (xs : List α) (r : ℕ)
    (hx : ∃ x ∈ xs, f x = r) : ∃ x ∈ xs.map g, f x = r := by
  obtain ⟨x, hmem, hfx⟩ := hx
  exact ⟨g x, List.mem_map_of_mem g hmem, (h x).trans hfx⟩

theorem nodup_append_singleton {α : Type} (xs : List α) (a : α)
    (h : xs.Nodup) (ha : a ∉ xs) : (xs ++ [a]).Nodup := by
  simp [List.nodup_append, h, ha]

theorem inv_createMatch (now : ℤ) (s : Store) (oid lid : ℕ) (inv : Inv s) :
    Inv (createMatch now s oid lid).1 := by
  unfold createMatch
  cases hfo : s.offers.find? (fun o => o.id == oid) with
  | none => exact inv
  | some o =>
    cases hfl : s.listings.find? (fun l => l.id == lid) with
    | none => exact inv
    | some l =>
      by_cases hact : o.status = .active ∧ l.status = .active
      · have hoid : o.id = oid := by
          have := List.find?_some hfo; simpa using this
        have hlid : l.id = lid := by
          have := List.find?_some hfl; simpa using this
        have homem : o ∈ s.offers := List.mem_of_find?_eq_some hfo
        have hlmem : l ∈ s.listings := List.mem_of_find?_eq_some hfl
        dsimp only
        rw [if_pos hact]
        have hg1id : ∀ x : BuyerOffer,
            ((fun x => if x.id == oid then
                { x with status := OfferStatus.matched,
                         matchedListing := some l.id,
                         matchedAt := some now } else x) x).id = x.id := by
          intro x; by_cases h : x.id == oid <;> simp [h]
        have hg2id : ∀ x : SellerListing,
            ((fun x => if x.id == lid then
                { x with status := ListingStatus.matched } else x) x).id = x.id := by
          intro x; by_cases h : x.id == lid <;> simp [h]
        have hnotrefo : ∀ t ∈ s.transactions, t.buyerOffer ≠ oid := by
          intro t ht heq
          have := inv.offerRefMatched t ht o homem (hoid.trans heq.symm)
          rw [this] at hact
          exact absurd hact.1 (by simp)
        have hnotrefl : ∀ t ∈ s.transactions, t.sellerListing ≠ some lid := by
          intro t ht heq
          have := inv.listingRefMatched t ht lid heq l hlmem hlid
          rw [this] at hact
          exact absurd hact.2 (by simp)
        refine ⟨?_, ?_, ?_, ?_, ?_, ?_⟩
        · simp only [List.map_append, List.map_cons, List.map_nil]
          refine nodup_append_singleton _ _ inv.offerRefsNodup ?_
          intro hmem
          obtain ⟨t, ht, htref⟩ := List.mem_map.mp hmem
          exact hnotrefo t ht (htref.trans hoid)
        · simp only [List.filterMap_append]
          have : List.filterMap (fun t : Transaction => t.sellerListing)
              [{ buyer := o.buyer, seller := l.seller, buyerOffer := o.id,
                 sellerListing := some l.id, event := o.event,
                 quantity := l.quantity, sect := l.sect, row := l.row,
                 seats := l.seats, salePrice := o.maxPrice,
                 buyerPaid := o.maxPrice, sellerFee := o.maxPrice * (1 / 10),
                 sellerPayout := o.maxPrice * (9 / 10),
                 deliveryMethod := l.deliveryMethod,
                 deliveryStatus := .pending, transferredAt := none,
                 confirmedAt := none, escrowStatus := .held,
                 escrowReleaseDate := none, payoutStatus := .pending,
                 hasDispute := false, disputeReason := none }] = [l.id] := by
            simp
          rw [this]
          refine nodup_append_singleton _ _ inv.listingRefsNodup ?_
          intro hmem
          obtain ⟨t, ht, htref⟩ := List.mem_filterMap.mp hmem
          exact hnotrefl t ht (htref.trans (by rw [hlid]))
        · intro t ht
          rcases List.mem_append.mp ht with ht | ht
          · exact exists_key_map _ _ hg1id _ _ (inv.offerRefExists t ht)
          · obtain rfl : t = _ := by simpa using ht
            refine ⟨_, List.mem_map_of_mem _ homem, ?_⟩
            simp [hoid]
        · intro t ht x hx hxid
          obtain ⟨x0, hx0, rfl⟩ := List.mem_map.mp hx
          rw [hg1id x0] at hxid
          by_cases hb : x0.id == oid
          · simp [hb]
          · simp only [hb, Bool.false_eq_true, if_false]
            rcases List.mem_append.mp ht with ht | ht
            · exact inv.offerRefMatched t ht x0 hx0 hxid
            · obtain rfl : t = _ := by simpa using ht
              exfalso
              apply hb
              simp only [beq_iff_eq]
              rw [hxid]; dsimp only; rw [hoid]
        · intro t ht lid' hlid'
          rcases List.mem_append.mp ht with ht | ht
          · exact exists_key_map _ _ hg2id _ _ (inv.listingRefExists t ht lid' hlid')
          · obtain rfl : t = _ := by simpa using ht
            have : lid' = l.id := by simpa using hlid'.symm
            subst this
            refine ⟨_, List.mem_map_of_mem _ hlmem, ?_⟩
            exact hg2id l
        · intro t ht lid' hlid' x hx hxid
          obtain ⟨x0, hx0, rfl⟩ := List.mem_map.mp hx
          rw [hg2id x0] at hxid
          by_cases hb : x0.id == lid
          · simp [hb]
          · simp only [hb, Bool.false_eq_true, if_false]
            rcases List.mem_append.mp ht with ht | ht
            · exact inv.listingRefMatched t ht lid' hlid' x0 hx0 hxid
            · obtain rfl : t = _ := by simpa using ht
              exfalso
              apply hb
              simp only [beq_iff_eq]
              rw [hxid]
              have : lid' = l.id := by simpa using hlid'.symm
              rw [this, hlid]
      · dsimp only
        rw [if_neg hact]
        exact inv

theorem inv_appendOffer (s : Store) (inv : Inv s) (o : BuyerOffer)
    (hfresh : ∀ o' ∈ s.offers, o'.id ≠ o.id) :
    Inv { s with offers := s.offers ++ [o] } := by
  refine ⟨inv.offerRefsNodup, inv.listingRefsNodup, ?_, ?_,
    inv.listingRefExists, inv.listingRefMatched⟩
  · intro t ht
    obtain ⟨o0, h0, hid⟩ := inv.offerRefExists t ht
    exact ⟨o0, List.mem_append_left _ h0, hid⟩
  · intro t ht x hx hxid
    rcases List.mem_append.mp hx with hx | hx
    · exact inv.offerRefMatched t ht x hx hxid
    · obtain rfl : x = o := by simpa using hx
      obtain ⟨o0, h0, hid⟩ := inv.offerRefExists t ht
      exact absurd (hid.trans hxid.symm) (hfresh o0 h0)

theorem inv_appendListing (s : Store) (inv : Inv s) (l : SellerListing)
    (hfresh : ∀ l' ∈ s.listings, l'.id ≠ l.id) :
    Inv { s with listings := s.listings ++ [l] } := by
  refine ⟨inv.offerRefsNodup, inv.listingRefsNodup, inv.offerRefExists,
    inv.offerRefMatched, ?_, ?_⟩
  · intro t ht lid hlid
    obtain ⟨l0, h0, hid⟩ := inv.listingRefExists t ht lid hlid
    exact ⟨l0, List.mem_append_left _ h0, hid⟩
  · intro t ht lid hlid x hx hxid
    rcases List.mem_append.mp hx with hx | hx
    · exact inv.listingRefMatched t ht lid hlid x hx hxid
    · obtain rfl : x = l := by simpa using hx
      obtain ⟨l0, h0, hid⟩ := inv.listingRefExists t ht lid hlid
      exact absurd (hid.trans hxid.symm) (hfresh l0 h0)

theorem inv_setListing (s : Store) (inv : Inv s) (lid : ℕ) (l : SellerListing)
    (hmem : l ∈ s.listings) (hid : l.id = lid) (hnm : l.status ≠ .matched)
    (g : SellerListing → SellerListing)
    (hgid : ∀ x, (g x).id = x.id)
    (hgskip : ∀ x, x.id ≠ lid → g x = x) :
    Inv { s with listings := s.listings.map g } := by
  have hunref : ∀ t ∈ s.transactions, t.sellerListing ≠ some lid := by
    intro t ht heq
    exact hnm (inv.listingRefMatched t ht lid heq l hmem hid)
  refine ⟨inv.offerRefsNodup, inv.listingRefsNodup, inv.offerRefExists,
    inv.offerRefMatched, ?_, ?_⟩
  · intro t ht lid' hlid'
    exact exists_key_map _ _ hgid _ _ (inv.listingRefExists t ht lid' hlid')
  · intro t ht lid' hlid' x hx hxid
    obtain ⟨x0, hx0, rfl⟩ := List.mem_map.mp hx
    rw [hgid x0] at hxid
    have hne : x0.id ≠ lid := by
      intro h
      exact hunref t ht (by rw [← hxid, h] at hlid'; exact hlid')
    rw [hgskip x0 hne]
    exact inv.listingRefMatched t ht lid' hlid' x0 hx0 hxid

theorem inv_setOffer (s : Store) (inv : Inv s) (oid : ℕ) (o : BuyerOffer)
    (hmem : o ∈ s.offers) (hid : o.id = oid) (hnm : o.status ≠ .matched)
    (g : BuyerOffer → BuyerOffer)
    (hgid : ∀ x, (g x).id = x.id)
    (hgskip : ∀ x, x.id ≠ oid → g x = x) :
    Inv { s with offers := s.offers.map g } := by
  have hunref : ∀ t ∈ s.transactions, t.buyerOffer ≠ oid := by
    intro t ht heq
    exact hnm (inv.offerRefMatched t ht o hmem (hid.trans heq.symm))
  refine ⟨inv.offerRefsNodup, inv.listingRefsNodup, ?_, ?_,
    inv.listingRefExists, inv.listingRefMatched⟩
  · intro t ht
    exact exists_key_map _ _ hgid _ _ (inv.offerRefExists t ht)
  · intro t ht x hx hxid
    obtain ⟨x0, hx0, rfl⟩ := List.mem_map.mp hx
    rw [hgid x0] at hxid
    have hne : x0.id ≠ oid := by
      intro h
      exact hunref t ht (by rw [← hxid, h])
    rw [hgskip x0 hne]
    exact inv.offerRefMatched t ht x0 hx0 hxid

theorem filterMap_congr_fn {α β : Type} (f g : α → Option β)
    (h : ∀ a, f a = g a) (xs : List α) : xs.filterMap f = xs.filterMap g := by
  induction xs with
  | nil => rfl
  | cons x xs ih => simp [List.filterMap_cons, h x, ih]

theorem inv_txMap (s : Store) (inv : Inv s) (g : Transaction → Transaction)
    (hg : ∀ t, (g t).buyerOffer = t.buyerOffer ∧
               (g t).sellerListing = t.sellerListing) :
    Inv { s with transactions := s.transactions.map g } := by
  have hmapo : (s.transactions.map g).map (·.buyerOffer) =
      s.transactions.map (·.buyerOffer) :=
    map_key_map_eq g _ (fun t => (hg t).1) _
  have hmapl : (s.transactions.map g).filterMap (·.sellerListing) =
      s.transactions.filterMap (·.sellerListing) := by
    rw [List.filterMap_map]
    exact filterMap_congr_fn _ _ (fun t => (hg t).2) _
  refine ⟨?_, ?_, ?_, ?_, ?_, ?_⟩
  · rw [hmapo]; exact inv.offerRefsNodup
  · rw [hmapl]; exact inv.listingRefsNodup
  · intro t ht
    obtain ⟨t0, ht0, rfl⟩ := List.mem_map.mp ht
    rw [(hg t0).1]
    exact inv.offerRefExists t0 ht0
  · intro t ht x hx hxid
    obtain ⟨t0, ht0, rfl⟩ := List.mem_map.mp ht
    rw [(hg t0).1] at hxid
    exact inv.offerRefMatched t0 ht0 x hx hxid
  · intro t ht lid hlid
    obtain ⟨t0, ht0, rfl⟩ := List.mem_map.mp ht
    rw [(hg t0).2] at hlid
    exact inv.listingRefExists t0 ht0 lid hlid
  · intro t ht lid hlid x hx hxid
    obtain ⟨t0, ht0, rfl⟩ := List.mem_map.mp ht
    rw [(hg t0).2] at hlid
    exact inv.listingRefMatched t0 ht0 lid hlid x hx hxid

theorem inv_acceptOffer (captureOk : Bool) (now : ℤ)
    (sellerId offerId newListingId : ℕ) (sec : String) (row : Option String)
    (seats : List String) (dm : String) (s : Store) (inv : Inv s)
    (hfresh : ∀ l ∈ s.listings, l.id ≠ newListingId) :
    Inv (acceptOfferRun captureOk now sellerId offerId newListingId
      sec row seats dm s).1 := by
  unfold acceptOfferRun
  cases hfo : s.offers.find? (fun o => o.id == offerId) with
  | none => exact inv
  | some o =>
    dsimp only
    by_cases hact : o.status = .active
    · rw [if_pos hact]
      by_cases hsec : o.sections.contains sec
      · rw [if_pos hsec]
        cases captureOk with
        | false =>
          simp only [Bool.false_eq_true, if_false]
          exact inv
        | true =>
          simp only [if_true]
          have hoid : o.id = offerId := by
            have := List.find?_some hfo; simpa using this
          have homem : o ∈ s.offers := List.mem_of_find?_eq_some hfo
          have hg1id : ∀ x : BuyerOffer,
              ((fun x => if x.id == offerId then
                  { o with status := OfferStatus.matched,
                           matchedListing := some newListingId,
                           matchedAt := some now } else x) x).id = x.id := by
            intro x
            by_cases h : x.id == offerId
            · have : x.id = offerId := by simpa using h
              simp [h, this, hoid]
            · simp [h]
          have hnotrefo : ∀ t ∈ s.transactions, t.buyerOffer ≠ offerId := by
            intro t ht heq
            have := inv.offerRefMatched t ht o homem (hoid.trans heq.symm)
            rw [this] at hact
            exact absurd hact (by simp)
          have hnotrefl : ∀ t ∈ s.transactions,
              t.sellerListing ≠ some newListingId := by
            intro t ht heq
            obtain ⟨l0, h0, hid⟩ := inv.listingRefExists t ht newListingId heq
            exact hfresh l0 h0 hid
          refine ⟨?_, ?_, ?_, ?_, ?_, ?_⟩
          · simp only [List.map_append, List.map_cons, List.map_nil]
            refine nodup_append_singleton _ _ inv.offerRefsNodup ?_
            intro hmem
            obtain ⟨t, ht, htref⟩ := List.mem_map.mp hmem
            exact hnotrefo t ht (htref.trans hoid)
          · simp only [List.filterMap_append]
            have hsingle : ∀ t : Transaction, t.sellerListing = some newListingId →
                List.filterMap (fun t : Transaction => t.sellerListing) [t] =
                  [newListingId] := by
              intro t h; simp [List.filterMap_cons, h]
            rw [hsingle _ rfl]
            refine nodup_append_singleton _ _ inv.listingRefsNodup ?_
            intro hmem
            obtain ⟨t, ht, htref⟩ := List.mem_filterMap.mp hmem
            exact hnotrefl t ht htref
          · intro t ht
            rcases List.mem_append.mp ht with ht | ht
            · exact exists_key_map _ _ hg1id _ _ (inv.offerRefExists t ht)
            · obtain rfl : t = _ := by simpa using ht
              refine ⟨_, List.mem_map_of_mem _ homem, ?_⟩
              have : (o.id == offerId) = true := by simpa using hoid
              simp [this, hoid]
          · intro t ht x hx hxid
            obtain ⟨x0, hx0, rfl⟩ := List.mem_map.mp hx
            rw [hg1id x0] at hxid
            by_cases hb : x0.id == offerId
            · simp [hb]
            · simp only [hb, Bool.false_eq_true, if_false]
              rcases List.mem_append.mp ht with ht | ht
              · exact inv.offerRefMatched t ht x0 hx0 hxid
              · obtain rfl : t = _ := by simpa using ht
                exfalso
                apply hb
                simp only [beq_iff_eq]
                rw [hxid]; dsimp only; rw [hoid]
          · intro t ht lid hlid
            rcases List.mem_append.mp ht with ht | ht
            · obtain ⟨l0, h0, hid⟩ := inv.listingRefExists t ht lid hlid
              exact ⟨l0, List.mem_append_left _ h0, hid⟩
            · obtain rfl : t = _ := by simpa using ht
              have : lid = newListingId := by simpa using hlid.symm
              subst this
              refine ⟨_, List.mem_append_right _ (List.mem_singleton_self _), rfl⟩
          · intro t ht lid hlid x hx hxid
            rcases List.mem_append.mp ht with ht | ht
            · rcases List.mem_append.mp hx with hx | hx
              · exact inv.listingRefMatched t ht lid hlid x hx hxid
              · obtain rfl : x = _ := by simpa using hx
                exfalso
                obtain ⟨l0, h0, hid⟩ := inv.listingRefExists t ht lid hlid
                exact hfresh l0 h0 (hid.trans hxid.symm)
            · obtain rfl : t = _ := by simpa using ht
              have : lid = newListingId := by simpa using hlid.symm
              subst this
              rcases List.mem_append.mp hx with hx | hx
              · exact absurd hxid (hfresh x hx)
              · obtain rfl : x = _ := by simpa using hx
                rfl
      · rw [if_neg hsec]
        exact inv
    · rw [if_neg hact]
      exact inv

theorem applyListingUpdate_id (u : ListingUpdateReq) (l : SellerListing) :
    (applyListingUpdate u l).id = l.id := rfl

theorem inv_step {s s' : Store} (inv : Inv s) (h : Step s s') : Inv s' := by
  cases h with
  | createOffer o hst hfresh => exact inv_appendOffer s inv o hfresh
  | createListing l hst hfresh => exact inv_appendListing s inv l hfresh
  | instantMatch now o ho =>
    unfold checkForInstantMatch
    cases bestInstantListing s o with
    | none => exact inv
    | some b => exact inv_createMatch now s o.id b.id inv
  | autoSell now l hl =>
    unfold processAutoSellListing
    by_cases he : autoSellEligible now l
    · rw [if_pos he]
      unfold findBestOfferForListing
      cases bestOfferForListing s l with
      | none => exact inv
      | some o =>
        dsimp only
        by_cases ha : l.autoSell.acceptHighestOffer
        · rw [if_pos ha]
          exact inv_createMatch now s o.id l.id inv
        · rw [if_neg ha]
          exact inv
    · rw [if_neg he]
      exact inv
  | accept captureOk now sellerId offerId newListingId sec row seats dm hfresh =>
    exact inv_acceptOffer captureOk now sellerId offerId newListingId
      sec row seats dm s inv hfresh
  | update sellerId listingId u =>
    unfold updateListing
    cases hf : s.listings.find? (fun l => l.id == listingId && l.seller == sellerId) with
    | none => exact inv
    | some l =>
      dsimp only
      by_cases hst : l.status = .matched ∨ l.status = .sold
      · rw [if_pos hst]
        exact inv
      · rw [if_neg hst]
        have hq : l.id = listingId ∧ l.seller = sellerId := by
          have := List.find?_some hf
          simpa [Bool.and_eq_true] using this
        refine inv_setListing s inv listingId l (List.mem_of_find?_eq_some hf)
          hq.1 (fun hm => hst (Or.inl hm)) _ ?_ ?_
        · intro x
          by_cases hb : x.id == listingId
          · have hx : x.id = listingId := by simpa using hb
            simp only [hb, if_true]
            cases hg : u.goLiveAt with
            | none => rw [applyListingUpdate_id, hq.1, hx]
            | some d =>
              cases d with
              | none => rw [applyListingUpdate_id, hq.1, hx]
              | some d' =>
                show (applyListingUpdate u l).id = x.id
                rw [applyListingUpdate_id, hq.1, hx]
          · simp [hb]
        · intro x hx
          have hb : (x.id == listingId) = false := by simpa using hx
          simp [hb]
  | delete sellerId listingId =>
    unfold deleteListing
    cases hf : s.listings.find? (fun l => l.id == listingId && l.seller == sellerId) with
    | none => exact inv
    | some l =>
      dsimp only
      by_cases hst : l.status = .matched ∨ l.status = .sold
      · rw [if_pos hst]
        exact inv
      · rw [if_neg hst]
        have hq : l.id = listingId ∧ l.seller = sellerId := by
          have := List.find?_some hf
          simpa [Bool.and_eq_true] using this
        refine inv_setListing s inv listingId l (List.mem_of_find?_eq_some hf)
          hq.1 (fun hm => hst (Or.inl hm)) _ ?_ ?_
        · intro x
          by_cases hb : x.id == listingId
          · have hx : x.id = listingId := by simpa using hb
            simp [hb, hq.1, hx]
          · simp [hb]
        · intro x hx
          have hb : (x.id == listingId) = false := by simpa using hx
          simp [hb]
  | live now up sellerId listingId =>
    unfold goLive
    cases hf : s.listings.find? (fun l => l.id == listingId &&
        l.seller == sellerId && l.status == ListingStatus.draft) with
    | none => exact inv
    | some l =>
      dsimp only
      by_cases hup : up
      · rw [if_pos hup]
        have hq : (l.id = listingId ∧ l.seller = sellerId) ∧
            l.status = ListingStatus.draft := by
          have := List.find?_some hf
          simpa [Bool.and_eq_true] using this
        refine inv_setListing s inv listingId l (List.mem_of_find?_eq_some hf)
          hq.1.1 (by rw [hq.2]; intro h; exact absurd h (by simp)) _ ?_ ?_
        · intro x
          by_cases hb : x.id == listingId
          · have hx : x.id = listingId := by simpa using hb
            simp [hb, hq.1.1, hx]
          · simp [hb]
        · intro x hx
          have hb : (x.id == listingId) = false := by simpa using hx
          simp [hb]
      · rw [if_neg hup]
        exact inv
  | cancel buyerId offerId =>
    unfold cancelOffer
    cases hf : s.offers.find? (fun o => o.id == offerId &&
        o.buyer == buyerId && o.status == OfferStatus.active) with
    | none => exact inv
    | some o =>
      dsimp only
      have hq : (o.id = offerId ∧ o.buyer = buyerId) ∧
          o.status = OfferStatus.active := by
        have := List.find?_some hf
        simpa [Bool.and_eq_true] using this
      refine inv_setOffer s inv offerId o (List.mem_of_find?_eq_some hf)
        hq.1.1 (by rw [hq.2]; intro h; exact absurd h (by simp)) _ ?_ ?_
      · intro x
        by_cases hb : x.id == offerId
        · have hx : x.id = offerId := by simpa using hb
          simp [hb, hq.1.1, hx]
        · simp [hb]
      · intro x hx
        have hb : (x.id == offerId) = false := by simpa using hx
        simp [hb]
  | txUpdate g hg => exact inv_txMap s inv g hg

theorem reachable_inv {s : Store} (h : Reachable s) : Inv s := by
  induction h with
  | init =>
    refine ⟨?_, ?_, ?_, ?_, ?_, ?_⟩ <;> simp [Store.init]
  | step hr hs ih => exact inv_step ih hs

/-- The escrow/delivery coupling: escrow is released exactly on a confirmed
delivery. -/
def EscrowInv (t : Transaction) : Prop :=
  t.escrowStatus = .released ↔ t.deliveryStatus = .confirmed

theorem txStep_escrowInv {eventDate : ℤ} {t t' : Transaction}
    (h : TxStep eventDate t t') (inv : EscrowInv t) : EscrowInv t' := by
  cases h with
  | transfer now hok =>
    unfold transferTickets at hok
    by_cases hst : t.deliveryStatus = .pending
    · rw [if_pos hst] at hok
      obtain rfl : _ = t' := by simpa using hok
      unfold EscrowInv at inv ⊢
      dsimp only
      constructor
      · intro hrel
        have : t.deliveryStatus = .confirmed := inv.mp hrel
        rw [hst] at this
        exact absurd this (by simp)
      · intro hco
        exact absurd hco (by simp)
    · rw [if_neg hst] at hok
      exact absurd hok (by simp)
  | confirm now hc tok hok =>
    unfold confirmDelivery at hok
    by_cases hst : t.deliveryStatus = .transferred
    · rw [if_pos hst] at hok
      by_cases hd : eventDate < now
      · rw [if_pos hd] at hok
        exact absurd hok (by simp)
      · rw [if_neg hd] at hok
        obtain rfl : _ = t' := by simpa using hok
        unfold EscrowInv processSellerPayout
        cases hc <;> cases tok <;> simp
    · rw [if_neg hst] at hok
      exact absurd hok (by simp)
  | dispute now reason hok =>
    unfold disputeTransaction at hok
    by_cases hv : validReasons.contains reason
    · rw [if_pos hv] at hok
      by_cases hst : t.deliveryStatus = .pending ∨ t.deliveryStatus = .transferred
      · rw [if_pos hst] at hok
        by_cases hdis : t.hasDispute
        · rw [if_pos hdis] at hok
          exact absurd hok (by simp)
        · rw [if_neg hdis] at hok
          by_cases hd : eventDate < now
          · rw [if_pos hd] at hok
            exact absurd hok (by simp)
          · rw [if_neg hd] at hok
            obtain rfl : _ = t' := by simpa using hok
            unfold EscrowInv
            simp
      · rw [if_neg hst] at hok
        exact absurd hok (by simp)
    · rw [if_neg hv] at hok
      exact absurd hok (by simp)

theorem txReachable_escrowInv {eventDate : ℤ} {t0 t : Transaction}
    (h : TxReachable eventDate t0 t) (inv0 : EscrowInv t0) : EscrowInv t := by
  induction h with
  | init => exact inv0
  | step hr hs ih => exact txStep_escrowInv hs ih

/-! ### Claim C5 -/

/-- C5: when the payment capture call fails (the `stripe.paymentIntents.capture`
call raises), an `acceptOffer` settlement attempt that reached the capture
step aborts the whole atomic unit: the store (offer statuses, listing
statuses, transaction set) is unchanged and an error is returned. -/
theorem C5_capture_failure_aborts (now : ℤ)
    (sellerId offerId newListingId : ℕ) (sec : String) (row : Option String)
    (seats : List String) (dm : String) (s : Store) (o : BuyerOffer)
    (hfind : s.offers.find? (fun x => x.id == offerId) = some o)
    (hact : o.status = .active) (hsec : o.sections.contains sec = true) :
    acceptOfferRun false now sellerId offerId newListingId sec row seats dm s
      = (s, Except.error "capture failed") := by
  unfold acceptOfferRun
  rw [hfind]
  dsimp only
  rw [if_pos hact, if_pos hsec]
  simp

def c5Offer : BuyerOffer :=
  { id := 31, buyer := 7, event := 2, sections := ["B"], maxPrice := 120,
    quantity := 1, paymentIntentId := 0, status := .active,
    matchedListing := none, matchedAt := none, expiresAt := 500 }

def c5Store : Store := ⟨[c5Offer], [], []⟩

theorem C5_capture_failure_aborts_witness :
    c5Store.offers.find? (fun x => x.id == 31) = some c5Offer ∧
    c5Offer.status = .active ∧
    c5Offer.sections.contains "B" = true ∧
    acceptOfferRun false 0 9 31 77 "B" none [] "pdf" c5Store
      = (c5Store, Except.error "capture failed") :=
  ⟨rfl, rfl, rfl,
    C5_capture_failure_aborts 0 9 31 77 "B" none [] "pdf" c5Store c5Offer
      rfl rfl rfl⟩

/-! ### Claim C4 -/

/-- C4: over every run of the delivery sub-machine started from a freshly
settled transaction (escrow `held`, delivery `pending`), `escrowStatus`
becomes `released` if and only if `deliveryStatus` reaches `confirmed`; a
`disputed` transaction never has a released escrow; and a successful
`confirmDelivery` requires the delivery to have been `transferred` with the
current time not past the event date, on success confirming the delivery,
releasing escrow, and starting the seller payout. -/
theorem C4_escrow_iff_confirmed (eventDate : ℤ) (t0 t : Transaction)
    (h0 : t0.escrowStatus = .held ∧ t0.deliveryStatus = .pending)
    (hr : TxReachable eventDate t0 t) :
    (t.escrowStatus = .released ↔ t.deliveryStatus = .confirmed) ∧
    (t.deliveryStatus = .disputed → t.escrowStatus ≠ .released) ∧
    (∀ now hc tok t', confirmDelivery now eventDate hc tok t = .ok t' →
      t.deliveryStatus = .transferred ∧ now ≤ eventDate ∧
      t'.deliveryStatus = .confirmed ∧ t'.escrowStatus = .released ∧
      (hc = true → t'.payoutStatus ≠ .pending)) := by
  have inv : EscrowInv t := by
    refine txReachable_escrowInv hr ?_
    unfold EscrowInv
    rw [h0.1, h0.2]
    simp
  refine ⟨inv, ?_, ?_⟩
  · intro hd hrel
    have := inv.mp hrel
    rw [hd] at this
    exact absurd this (by simp)
  · intro now hc tok t' hok
    unfold confirmDelivery at hok
    by_cases hst : t.deliveryStatus = .transferred
    · rw [if_pos hst] at hok
      by_cases hd : eventDate < now
      · rw [if_pos hd] at hok
        exact absurd hok (by simp)
      · rw [if_neg hd] at hok
        obtain rfl : _ = t' := by simpa using hok
        refine ⟨hst, le_of_not_lt hd, ?_, ?_, ?_⟩
        · unfold processSellerPayout
          cases hc <;> cases tok <;> simp
        · unfold processSellerPayout
          cases hc <;> cases tok <;> simp
        · intro hhc
          subst hhc
          unfold processSellerPayout
          cases tok <;> simp
    · rw [if_neg hst] at hok
      exact absurd hok (by simp)

def c4t0 : Transaction :=
  { buyer := 7, seller := 9, buyerOffer := 31, sellerListing := some 77,
    event := 2, quantity := 1, sect := "B", row := none, seats := [],
    salePrice := 120, buyerPaid := 120, sellerFee := 12, sellerPayout := 108,
    deliveryMethod := "pdf", deliveryStatus := .pending, transferredAt := none,
    confirmedAt := none, escrowStatus := .held, escrowReleaseDate := none,
    payoutStatus := .pending, hasDispute := false, disputeReason := none }

def c4t1 : Transaction :=
  { c4t0 with deliveryStatus := .transferred, transferredAt := some 1 }

theorem C4_escrow_iff_confirmed_witness :
    (c4t0.escrowStatus = .held ∧ c4t0.deliveryStatus = .pending) ∧
    ((c4t1.escrowStatus = .released ↔ c4t1.deliveryStatus = .confirmed) ∧
     (c4t1.deliveryStatus = .disputed → c4t1.escrowStatus ≠ .released) ∧
     (∀ now hc tok t', confirmDelivery now 10 hc tok c4t1 = .ok t' →
       c4t1.deliveryStatus = .transferred ∧ now ≤ 10 ∧
       t'.deliveryStatus = .confirmed ∧ t'.escrowStatus = .released ∧
       (hc = true → t'.payoutStatus ≠ .pending))) :=
  ⟨⟨rfl, rfl⟩,
    C4_escrow_iff_confirmed 10 c4t0 c4t1 ⟨rfl, rfl⟩
      (TxReachable.step TxReachable.init (TxStep.transfer 1 rfl))⟩

/-! ### Claim C2 -/

theorem fee_split (q : ℚ) : q * (1 / 10) + q * (9 / 10) = q := by ring

def scListing : SellerListing :=
  { id := 1, seller := 10, event := 5, sect := "A", row := none, seats := [],
    quantity := 2, askingPrice := some 180, minimumAcceptablePrice := some 150,
    isLive := true, goLiveAt := none,
    autoSell := { enabled := false, triggerTime := none, acceptHighestOffer := true },
    status := .active, deliveryMethod := "pdf" }

def scOffer : BuyerOffer :=
  { id := 2, buyer := 20, event := 5, sections := ["A"], maxPrice := 200,
    quantity := 2, paymentIntentId := 0, status := .active,
    matchedListing := none, matchedAt := none, expiresAt := 1000 }

def scStore : Store := ⟨[scOffer], [scListing], []⟩

/-! The source computes `offer.maxPrice * 0.1` and `offer.maxPrice * 0.9` in
IEEE-754 binary64 (JavaScript number) arithmetic, while the `Store` model
above carries monetary amounts as exact rationals.  To settle the exactness
claim on the source's own arithmetic, binary64 rounding is modelled here:
a double is an integer mantissa of magnitude below 2^53 scaled by a power of
two, and round-to-nearest returns a representable value at minimal distance.
(The exponent-range limits of binary64 do not bind at these magnitudes, and
every actual double is of the stated form, so a unique minimizer over this
set is the value the hardware produces.) -/

/-- A finite IEEE-754 binary64 value: `m * 2 ^ e` with `|m| < 2 ^ 53`. -/
def IsBinary64 (r : ℚ) : Prop :=
  ∃ m e : ℤ, r = (m : ℚ) * (2 : ℚ) ^ e ∧ |m| < 2 ^ 53

/-- `r` is a round-to-nearest binary64 result for the exact value `q`:
representable, at minimal distance over all representable values. -/
def RoundsTo (q r : ℚ) : Prop :=
  IsBinary64 r ∧ ∀ x, IsBinary64 x → |r - q| ≤ |x - q|

theorem roundsTo_self (q : ℚ) (h : IsBinary64 q) : RoundsTo q q :=
  ⟨h, fun x _ => by simp [abs_nonneg]⟩

/-- If `r = m * 2 ^ e` lies strictly within half an ulp of `q`, and `q` lies
inside the binade where the spacing of representables is `2 ^ e`, then `r` is
the unique round-to-nearest result for `q`. -/
theorem roundsTo_of_near (q r : ℚ) (e m : ℤ)
    (hr : r = (m : ℚ) * (2 : ℚ) ^ e) (hm : |m| < 2 ^ 53)
    (hclose : |r - q| < (2 : ℚ) ^ e / 2)
    (hq : 2 ^ 52 * (2 : ℚ) ^ e + (2 : ℚ) ^ e / 2 ≤ q) :
    RoundsTo q r ∧ ∀ r', RoundsTo q r' → r' = r := by
  have hupos : (0 : ℚ) < (2 : ℚ) ^ e := zpow_pos (by norm_num) e
  have grid : ∀ x : ℚ, IsBinary64 x → |x - q| < (2 : ℚ) ^ e / 2 →
      ∃ k : ℤ, x = (k : ℚ) * (2 : ℚ) ^ e := by
    intro x hx hxq
    obtain ⟨m', e', hxe, hm'⟩ := hx
    by_cases hee : e ≤ e'
    · refine ⟨m' * 2 ^ (e' - e).toNat, ?_⟩
      rw [hxe]
      push_cast
      rw [mul_assoc, ← zpow_natCast (2 : ℚ) (e' - e).toNat,
        Int.toNat_of_nonneg (sub_nonneg.mpr hee),
        ← zpow_add₀ (two_ne_zero) (e' - e) e]
      ring_nf
    · exfalso
      push_neg at hee
      have hxlow : 2 ^ 52 * (2 : ℚ) ^ e ≤ x := by
        have h1 := (abs_sub_lt_iff.mp hxq).2
        linarith
      have habs : |(m' : ℚ)| ≤ 2 ^ 53 - 1 := by
        have h2 : |m'| ≤ 2 ^ 53 - 1 := by omega
        have h3 : ((|m'| : ℤ) : ℚ) ≤ ((2 ^ 53 - 1 : ℤ) : ℚ) := by exact_mod_cast h2
        rw [Int.cast_abs] at h3
        push_cast at h3
        linarith
      have hxup : x ≤ (2 ^ 53 - 1) * ((2 : ℚ) ^ e / 2) := by
        have h4 : x ≤ |x| := le_abs_self x
        have h5 : |x| = |(m' : ℚ)| * (2 : ℚ) ^ e' := by
          rw [hxe, abs_mul,
            abs_of_pos (zpow_pos (by norm_num : (0 : ℚ) < 2) e')]
        have h6 : (2 : ℚ) ^ e' ≤ (2 : ℚ) ^ (e - 1) :=
          zpow_le_zpow_right₀ (by norm_num) (by omega)
        have h7 : (2 : ℚ) ^ (e - 1) = (2 : ℚ) ^ e / 2 := by
          rw [zpow_sub₀ (two_ne_zero), zpow_one]
        have h8 : |(m' : ℚ)| * (2 : ℚ) ^ e' ≤ (2 ^ 53 - 1) * ((2 : ℚ) ^ e / 2) := by
          rw [← h7]
          exact mul_le_mul habs h6
            (le_of_lt (zpow_pos (by norm_num : (0 : ℚ) < 2) e'))
            (by norm_num)
        linarith
      linarith
  have sep : ∀ (x : ℚ) (k : ℤ), x = (k : ℚ) * (2 : ℚ) ^ e → x ≠ r →
      (2 : ℚ) ^ e ≤ |x - r| := by
    intro x k hk hne
    have hkm : k ≠ m := by
      intro hkm
      exact hne (by rw [hk, hkm, ← hr])
    have h1 : (1 : ℚ) ≤ |(k : ℚ) - (m : ℚ)| := by
      have h0 : 1 ≤ |k - m| := Int.one_le_abs (sub_ne_zero.mpr hkm)
      have h2 : ((1 : ℤ) : ℚ) ≤ ((|k - m| : ℤ) : ℚ) := by exact_mod_cast h0
      rw [Int.cast_abs] at h2
      push_cast at h2
      linarith
    have h3 : x - r = ((k : ℚ) - (m : ℚ)) * (2 : ℚ) ^ e := by
      rw [hk, hr]; ring
    rw [h3, abs_mul, abs_of_pos hupos]
    calc (2 : ℚ) ^ e = 1 * (2 : ℚ) ^ e := (one_mul _).symm
      _ ≤ |(k : ℚ) - (m : ℚ)| * (2 : ℚ) ^ e :=
          mul_le_mul_of_nonneg_right h1 (le_of_lt hupos)
  constructor
  · refine ⟨⟨m, e, hr, hm⟩, ?_⟩
    intro x hx
    by_contra hcon
    push_neg at hcon
    have hx2 : |x - q| < (2 : ℚ) ^ e / 2 := lt_trans hcon hclose
    obtain ⟨k, hk⟩ := grid x hx hx2
    have hne : x ≠ r := by
      intro hcontra
      rw [hcontra] at hcon
      exact lt_irrefl _ hcon
    have hsep := sep x k hk hne
    have htri : |x - r| ≤ |x - q| + |q - r| := abs_sub_le x q r
    have hqr : |q - r| < (2 : ℚ) ^ e / 2 := by
      rw [abs_sub_comm]; exact hclose
    linarith
  · intro r' hr'
    have h1 : |r' - q| ≤ |r - q| := hr'.2 r ⟨m, e, hr, hm⟩
    have h2 : |r' - q| < (2 : ℚ) ^ e / 2 := lt_of_le_of_lt h1 hclose
    obtain ⟨k, hk⟩ := grid r' hr'.1 h2
    by_contra hne
    have hsep := sep r' k hk hne
    have htri : |r' - r| ≤ |r' - q| + |q - r| := abs_sub_le r' q r
    have hqr : |q - r| < (2 : ℚ) ^ e / 2 := by
      rw [abs_sub_comm]; exact hclose
    linarith

/-- The binary64 value of the source literal `0.1`. -/
def fl01 : ℚ := 3602879701896397 / 2 ^ 55

/-- The binary64 value of the source literal `0.9`. -/
def fl09 : ℚ := 8106479329266893 / 2 ^ 53

/-- `13 * 0.1` computed in binary64. -/
def flFee13 : ℚ := 5854679515581645 / 2 ^ 52

/-- `13 * 0.9` computed in binary64. -/
def flPayout13 : ℚ := 6586514455029351 / 2 ^ 49

/-- `13 * 0.1 + 13 * 0.9` computed in binary64 (JavaScript prints it as
13.000000000000002). -/
def flSum13 : ℚ := 7318349394477057 / 2 ^ 49

/-- C2 counterexample: for the valid, exactly representable price 13, the
source's double arithmetic (`offer.maxPrice * 0.1` and `offer.maxPrice * 0.9`
rounded independently, then added) yields
`sellerFee + sellerPayout = 13.000000000000002 ≠ 13 = salePrice`: the
literals 0.1 and 0.9 round to `fl01`/`fl09`, the two products round (uniquely)
to `flFee13`/`flPayout13`, and their sum — whether compared exactly or after
the final rounding `flSum13` — differs from 13.  So
`sellerFee + sellerPayout == salePrice` does not hold *exactly* for every
successful settlement in the program's arithmetic. -/
theorem C2_counterexample :
    (RoundsTo (1 / 10) fl01 ∧ ∀ r, RoundsTo (1 / 10) r → r = fl01) ∧
    (RoundsTo (9 / 10) fl09 ∧ ∀ r, RoundsTo (9 / 10) r → r = fl09) ∧
    (RoundsTo (13 * fl01) flFee13 ∧ ∀ r, RoundsTo (13 * fl01) r → r = flFee13) ∧
    (RoundsTo (13 * fl09) flPayout13 ∧
      ∀ r, RoundsTo (13 * fl09) r → r = flPayout13) ∧
    (RoundsTo (flFee13 + flPayout13) flSum13 ∧
      ∀ r, RoundsTo (flFee13 + flPayout13) r → r = flSum13) ∧
    IsBinary64 (13 : ℚ) ∧
    flFee13 + flPayout13 ≠ 13 ∧ flSum13 ≠ 13 := by
  refine ⟨?_, ?_, ?_, ?_, ?_, ⟨13, 0, by norm_num, by norm_num⟩,
    by norm_num [flFee13, flPayout13], by norm_num [flSum13]⟩
  · exact roundsTo_of_near (1 / 10) fl01 (-56) 7205759403792794
      (by norm_num [fl01]) (by norm_num)
      (by rw [abs_sub_lt_iff]; constructor <;> norm_num [fl01])
      (by norm_num)
  · exact roundsTo_of_near (9 / 10) fl09 (-53) 8106479329266893
      (by norm_num [fl09]) (by norm_num)
      (by rw [abs_sub_lt_iff]; constructor <;> norm_num [fl09])
      (by norm_num)
  · exact roundsTo_of_near (13 * fl01) flFee13 (-52) 5854679515581645
      (by norm_num [flFee13]) (by norm_num)
      (by rw [abs_sub_lt_iff]; constructor <;> norm_num [fl01, flFee13])
      (by norm_num [fl01])
  · exact roundsTo_of_near (13 * fl09) flPayout13 (-49) 6586514455029351
      (by norm_num [flPayout13]) (by norm_num)
      (by rw [abs_sub_lt_iff]; constructor <;> norm_num [fl09, flPayout13])
      (by norm_num [fl09])
  · exact roundsTo_of_near (flFee13 + flPayout13) flSum13 (-49) 7318349394477057
      (by norm_num [flSum13]) (by norm_num)
      (by rw [abs_sub_lt_iff]
          constructor <;> norm_num [flFee13, flPayout13, flSum13])
      (by norm_num [flFee13, flPayout13])

/-- C2 (amended): for every successful settlement the intended 10%/90% split
satisfies `sellerFee + sellerPayout = salePrice` in exact (rational)
arithmetic, i.e. the identity holds up to floating-point rounding — in the
source's binary64 arithmetic it fails for some valid prices (see the
counterexample at price 13).  In the concrete scenario the double computation
happens to be exact: `200 * 0.1` rounds to exactly 20, `200 * 0.9` to exactly
180, their sum to exactly 200, and the instant-matched transaction has
`salePrice = 200`, `sellerFee = 20`, `sellerPayout = 180` with both offer and
listing ending in status `matched`. -/
theorem C2_amended_fee_split :
    (∀ captureOk now sellerId offerId newListingId sec row seats dm
        (s s' : Store) (t : Transaction),
      acceptOfferRun captureOk now sellerId offerId newListingId
        sec row seats dm s = (s', Except.ok t) →
      t.sellerFee + t.sellerPayout = t.salePrice ∧
      t.sellerFee = t.salePrice * (1 / 10) ∧
      t.sellerPayout = t.salePrice * (9 / 10)) ∧
    (∀ now (s s' : Store) (oid lid : ℕ) (t : Transaction),
      createMatch now s oid lid = (s', Except.ok t) →
      t.sellerFee + t.sellerPayout = t.salePrice ∧
      t.sellerFee = t.salePrice * (1 / 10) ∧
      t.sellerPayout = t.salePrice * (9 / 10)) ∧
    ((checkForInstantMatch 0 scStore scOffer).transactions.map
        (fun t => (t.salePrice, t.sellerFee, t.sellerPayout))
      = [(200, 20, 180)] ∧
     (checkForInstantMatch 0 scStore scOffer).offers.map (·.status)
      = [OfferStatus.matched] ∧
     (checkForInstantMatch 0 scStore scOffer).listings.map (·.status)
      = [ListingStatus.matched]) ∧
    ((RoundsTo (200 * fl01) 20 ∧ ∀ r, RoundsTo (200 * fl01) r → r = 20) ∧
     (RoundsTo (200 * fl09) 180 ∧ ∀ r, RoundsTo (200 * fl09) r → r = 180) ∧
     RoundsTo ((20 : ℚ) + 180) 200) := by
  refine ⟨?_, ?_, ⟨?_, ?_, ?_⟩, ?_, ?_, ?_⟩
  · intro captureOk now sellerId offerId newListingId sec row seats dm s s' t h
    unfold acceptOfferRun at h
    cases hfo : s.offers.find? (fun o => o.id == offerId) with
    | none => rw [hfo] at h; exact absurd h (by simp)
    | some o =>
      rw [hfo] at h
      dsimp only at h
      by_cases hact : o.status = .active
      · rw [if_pos hact] at h
        by_cases hsec : o.sections.contains sec
        · rw [if_pos hsec] at h
          cases captureOk with
          | false =>
            simp only [Bool.false_eq_true, if_false] at h
            exact absurd h (by simp)
          | true =>
            simp only [if_true] at h
            obtain rfl : _ = t := Except.ok.inj (congrArg Prod.snd h)
            exact ⟨fee_split o.maxPrice, rfl, rfl⟩
        · rw [if_neg hsec] at h
          exact absurd h (by simp)
      · rw [if_neg hact] at h
        exact absurd h (by simp)
  · intro now s s' oid lid t h
    unfold createMatch at h
    cases hfo : s.offers.find? (fun o => o.id == oid) with
    | none => rw [hfo] at h; exact absurd h (by simp)
    | some o =>
      rw [hfo] at h
      cases hfl : s.listings.find? (fun l => l.id == lid) with
      | none => rw [hfl] at h; exact absurd h (by simp)
      | some l =>
        rw [hfl] at h
        dsimp only at h
        by_cases hact : o.status = .active ∧ l.status = .active
        · rw [if_pos hact] at h
          obtain rfl : _ = t := Except.ok.inj (congrArg Prod.snd h)
          exact ⟨fee_split o.maxPrice, rfl, rfl⟩
        · rw [if_neg hact] at h
          exact absurd h (by simp)
  · have h1 : (checkForInstantMatch 0 scStore scOffer).transactions.map
        (fun t => (t.salePrice, t.sellerFee, t.sellerPayout))
        = [((200 : ℚ), (200 : ℚ) * (1 / 10), (200 : ℚ) * (9 / 10))] := rfl
    rw [h1]
    norm_num
  · rfl
  · rfl
  · exact roundsTo_of_near (200 * fl01) 20 (-48) 5629499534213120
      (by norm_num) (by norm_num)
      (by rw [abs_sub_lt_iff]; constructor <;> norm_num [fl01])
      (by norm_num [fl01])
  · exact roundsTo_of_near (200 * fl09) 180 (-45) 6333186975989760
      (by norm_num) (by norm_num)
      (by rw [abs_sub_lt_iff]; constructor <;> norm_num [fl09])
      (by norm_num [fl09])
  · have h20 : (20 : ℚ) + 180 = 200 := by norm_num
    rw [h20]
    exact roundsTo_self 200 ⟨200, 0, by norm_num, by norm_num⟩

/-! ### Claim C1 -/

/-- C1: in every reachable state each offer and each listing is referenced by
at most one committed transaction; moreover, after a settlement attempt
succeeds, a second attempt against the same offer (via `acceptOffer`) or the
same offer/listing (via `createMatch`) aborts with an error, because the
atomic unit re-reads the records and requires status `active`. -/
theorem C1_no_double_match (s : Store) (h : Reachable s) :
    ((s.transactions.map (·.buyerOffer)).Nodup ∧
     (s.transactions.filterMap (·.sellerListing)).Nodup) ∧
    (∀ captureOk now sellerId offerId newListingId sec row seats dm s' t,
      acceptOfferRun captureOk now sellerId offerId newListingId
        sec row seats dm s = (s', Except.ok t) →
      ∀ captureOk2 now2 sellerId2 newListingId2 sec2 row2 seats2 dm2,
        ∃ msg, (acceptOfferRun captureOk2 now2 sellerId2 offerId newListingId2
          sec2 row2 seats2 dm2 s').2 = Except.error msg) ∧
    (∀ now oid lid s' t, createMatch now s oid lid = (s', Except.ok t) →
      (∀ now2 oid2, ∃ msg,
        (createMatch now2 s' oid2 lid).2 = Except.error msg) ∧
      (∀ now2 lid2, ∃ msg,
        (createMatch now2 s' oid lid2).2 = Except.error msg)) := by
  have inv := reachable_inv h
  refine ⟨⟨inv.offerRefsNodup, inv.listingRefsNodup⟩, ?_, ?_⟩
  · intro captureOk now sellerId offerId newListingId sec row seats dm s' t hsuc
    intro captureOk2 now2 sellerId2 newListingId2 sec2 row2 seats2 dm2
    unfold acceptOfferRun at hsuc
    cases hfo : s.offers.find? (fun o => o.id == offerId) with
    | none => rw [hfo] at hsuc; exact absurd hsuc (by simp)
    | some o =>
      rw [hfo] at hsuc
      dsimp only at hsuc
      by_cases hact : o.status = .active
      · rw [if_pos hact] at hsuc
        by_cases hsec : o.sections.contains sec
        · rw [if_pos hsec] at hsuc
          cases captureOk with
          | false =>
            simp only [Bool.false_eq_true, if_false] at hsuc
            exact absurd hsuc (by simp)
          | true =>
            simp only [if_true] at hsuc
            have hs' : _ = s' := congrArg Prod.fst hsuc
            have hoffers : s'.offers = s.offers.map (fun x =>
                if x.id == offerId then
                  { o with status := OfferStatus.matched,
                           matchedListing := some newListingId,
                           matchedAt := some now } else x) := by
              rw [← hs']
            unfold acceptOfferRun
            cases hfo2 : s'.offers.find? (fun o => o.id == offerId) with
            | none => exact ⟨_, rfl⟩
            | some o2 =>
              have hmem2 := List.mem_of_find?_eq_some hfo2
              rw [hoffers] at hmem2
              obtain ⟨x0, hx0, hx0eq⟩ := List.mem_map.mp hmem2
              have hpred : (o2.id == offerId) = true := by
                have := List.find?_some hfo2; simpa using this
              have ho2 : o2.status = OfferStatus.matched := by
                by_cases hb : x0.id == offerId
                · rw [← hx0eq]
                  simp [hb]
                · rw [← hx0eq] at hpred
                  simp only [hb, Bool.false_eq_true, if_false] at hpred
              dsimp only
              rw [if_neg (by rw [ho2]; intro hcon; exact absurd hcon (by simp))]
              exact ⟨_, rfl⟩
        · rw [if_neg hsec] at hsuc
          exact absurd hsuc (by simp)
      · rw [if_neg hact] at hsuc
        exact absurd hsuc (by simp)
  · intro now oid lid s' t hsuc
    unfold createMatch at hsuc
    cases hfo : s.offers.find? (fun o => o.id == oid) with
    | none => rw [hfo] at hsuc; exact absurd hsuc (by simp)
    | some o =>
      rw [hfo] at hsuc
      cases hfl : s.listings.find? (fun l => l.id == lid) with
      | none => rw [hfl] at hsuc; exact absurd hsuc (by simp)
      | some l =>
        rw [hfl] at hsuc
        dsimp only at hsuc
        by_cases hact : o.status = .active ∧ l.status = .active
        · rw [if_pos hact] at hsuc
          have hs' : _ = s' := congrArg Prod.fst hsuc
          have hoffers : s'.offers = s.offers.map (fun x =>
              if x.id == oid then
                { x with status := OfferStatus.matched,
                         matchedListing := some l.id,
                         matchedAt := some now } else x) := by
            rw [← hs']
          have hlistings : s'.listings = s.listings.map (fun x =>
              if x.id == lid then
                { x with status := ListingStatus.matched } else x) := by
            rw [← hs']
          constructor
          · intro now2 oid2
            unfold createMatch
            cases hfo2 : s'.offers.find? (fun o => o.id == oid2) with
            | none => exact ⟨_, rfl⟩
            | some o2 =>
              cases hfl2 : s'.listings.find? (fun l => l.id == lid) with
              | none => exact ⟨_, rfl⟩
              | some l2 =>
                have hmem2 := List.mem_of_find?_eq_some hfl2
                rw [hlistings] at hmem2
                obtain ⟨x0, hx0, hx0eq⟩ := List.mem_map.mp hmem2
                have hpred : (l2.id == lid) = true := by
                  have := List.find?_some hfl2; simpa using this
                have hl2 : l2.status = ListingStatus.matched := by
                  by_cases hb : x0.id == lid
                  · rw [← hx0eq]
                    simp [hb]
                  · rw [← hx0eq] at hpred
                    simp only [hb, Bool.false_eq_true, if_false] at hpred
                dsimp only
                rw [if_neg (by
                  intro hcon
                  rw [hl2] at hcon
                  exact absurd hcon.2 (by simp))]
                exact ⟨_, rfl⟩
          · intro now2 lid2
            unfold createMatch
            cases hfo2 : s'.offers.find? (fun o => o.id == oid) with
            | none => exact ⟨_, rfl⟩
            | some o2 =>
              cases hfl2 : s'.listings.find? (fun l => l.id == lid2) with
              | none => exact ⟨_, rfl⟩
              | some l2 =>
                have hmem2 := List.mem_of_find?_eq_some hfo2
                rw [hoffers] at hmem2
                obtain ⟨x0, hx0, hx0eq⟩ := List.mem_map.mp hmem2
                have hpred : (o2.id == oid) = true := by
                  have := List.find?_some hfo2; simpa using this
                have ho2 : o2.status = OfferStatus.matched := by
                  by_cases hb : x0.id == oid
                  · rw [← hx0eq]
                    simp [hb]
                  · rw [← hx0eq] at hpred
                    simp only [hb, Bool.false_eq_true, if_false] at hpred
                dsimp only
                rw [if_neg (by
                  intro hcon
                  rw [ho2] at hcon
                  exact absurd hcon.1 (by simp))]
                exact ⟨_, rfl⟩
        · rw [if_neg hact] at hsuc
          exact absurd hsuc (by simp)

def c1Offer : BuyerOffer :=
  { id := 41, buyer := 20, event := 5, sections := ["A"], maxPrice := 90,
    quantity := 1, paymentIntentId := 0, status := .active,
    matchedListing := none, matchedAt := none, expiresAt := 100 }

def c1Store : Store :=
  (acceptOfferRun true 0 9 41 100 "A" none [] "pdf"
    { Store.init with offers := Store.init.offers ++ [c1Offer] }).1

theorem C1_no_double_match_witness :
    Reachable c1Store ∧
    ((c1Store.transactions.map (·.buyerOffer)).Nodup ∧
     (c1Store.transactions.filterMap (·.sellerListing)).Nodup) := by
  have hr : Reachable c1Store :=
    Reachable.step
      (Reachable.step Reachable.init
        (Step.createOffer Store.init c1Offer rfl (by simp [Store.init])))
      (Step.accept { Store.init with offers := Store.init.offers ++ [c1Offer] }
        true 0 9 41 100 "A" none [] "pdf" (by simp [Store.init]))
  exact ⟨hr, (C1_no_double_match c1Store hr).1⟩

/-! ### Claim C3 -/

def c3Offer : BuyerOffer :=
  { id := 3, buyer := 8, event := 2, sections := ["A"], maxPrice := 100,
    quantity := 1, paymentIntentId := 0, status := .active,
    matchedListing := none, matchedAt := none, expiresAt := -5 }

def c3Store : Store := ⟨[c3Offer], [], []⟩

/-- C3 counterexample: an offer whose `expiresAt` (-5) is already in the past
at `now = 0` but whose status is still `active` is nevertheless settled by
`acceptOffer` and transitions to `matched` — none of the matching or
settlement paths consults `expiresAt`. -/
theorem C3_counterexample :
    c3Offer.expiresAt < 0 ∧
    (acceptOfferRun true 0 9 3 100 "A" none [] "pdf" c3Store).2.isOk = true ∧
    ((acceptOfferRun true 0 9 3 100 "A" none [] "pdf" c3Store).1.offers.map
      (·.status)) = [OfferStatus.matched] :=
  ⟨by decide, rfl, rfl⟩

/-- C3 (amended): the operations transition an offer to `matched` only when
its *status* is still `active`; `expiresAt` is never consulted, so only an
offer whose status has already been set to `expired` (or any other non-active
status) is protected, while an offer whose `expiresAt` lies in the past but
whose status is still `active` can still be matched. -/
theorem C3_amended_matched_only_from_active :
    (∀ captureOk now sellerId offerId newListingId sec row seats dm
        (s s' : Store) (t : Transaction),
      acceptOfferRun captureOk now sellerId offerId newListingId
        sec row seats dm s = (s', Except.ok t) →
      ∃ o, s.offers.find? (fun x => x.id == offerId) = some o ∧
        o.status = .active) ∧
    (∀ now (s : Store) (oid lid : ℕ),
      (∀ o ∈ s.offers, o.id = oid → o.status ≠ .active) →
      createMatch now s oid lid
          = (s, Except.error "conflict: offer or listing no longer active") ∨
      createMatch now s oid lid
          = (s, Except.error "offer or listing not found")) := by
  constructor
  · intro captureOk now sellerId offerId newListingId sec row seats dm s s' t h
    unfold acceptOfferRun at h
    cases hfo : s.offers.find? (fun o => o.id == offerId) with
    | none => rw [hfo] at h; exact absurd h (by simp)
    | some o =>
      rw [hfo] at h
      dsimp only at h
      by_cases hact : o.status = .active
      · exact ⟨o, rfl, hact⟩
      · rw [if_neg hact] at h
        exact absurd h (by simp)
  · intro now s oid lid hna
    unfold createMatch
    cases hfo : s.offers.find? (fun o => o.id == oid) with
    | none => right; rfl
    | some o =>
      have hoid : o.id = oid := by
        have := List.find?_some hfo; simpa using this
      have : o.status ≠ .active := hna o (List.mem_of_find?_eq_some hfo) hoid
      cases hfl : s.listings.find? (fun l => l.id == lid) with
      | none => right; rfl
      | some l =>
        left
        dsimp only
        rw [if_neg (fun hcon => this hcon.1)]

/-! ### Claim C6 -/

/-- The forward candidate predicate as the claim words it: identical to the
query except that a listing with no `minimumAcceptablePrice` is treated as
immediately acceptable. -/
def specInstantMatchCandidate (o : BuyerOffer) (l : SellerListing) : Bool :=
  l.event == o.event && o.sections.contains l.sect &&
  l.status == ListingStatus.active && l.isLive &&
  decide (l.quantity ≤ o.quantity) &&
  (match l.minimumAcceptablePrice with
   | some m => decide (m ≤ o.maxPrice)
   | none => true)

def c6Listing : SellerListing :=
  { id := 61, seller := 10, event := 5, sect := "A", row := none, seats := [],
    quantity := 1, askingPrice := some 80, minimumAcceptablePrice := none,
    isLive := true, goLiveAt := none,
    autoSell := { enabled := false, triggerTime := none, acceptHighestOffer := true },
    status := .active, deliveryMethod := "pdf" }

def c6Offer : BuyerOffer :=
  { id := 62, buyer := 20, event := 5, sections := ["A"], maxPrice := 200,
    quantity := 2, paymentIntentId := 0, status := .active,
    matchedListing := none, matchedAt := none, expiresAt := 1000 }

def c6Store : Store := ⟨[c6Offer], [c6Listing], []⟩

/-- C6 counterexample: a listing with no `minimumAcceptablePrice` that meets
every other condition is a candidate under the claim's reading but is not
matched by the query (`$lte` does not match an absent field): the instant
match finds nothing and the store is unchanged. -/
theorem C6_counterexample :
    specInstantMatchCandidate c6Offer c6Listing = true ∧
    instantMatchCandidate c6Offer c6Listing = false ∧
    bestInstantListing c6Store c6Offer = none ∧
    checkForInstantMatch 0 c6Store c6Offer = c6Store :=
  ⟨rfl, rfl, rfl, rfl⟩

/-- C6 (amended): a listing is a candidate for the instant match exactly when
it has the same event, its section is among the offer's sections, it is
`active` and live, its quantity is at most the offer's quantity, and it has a
*defined* `minimumAcceptablePrice` that is at most the offer's `maxPrice` —
a listing with no minimum price is never a candidate.  Among candidates the
earliest-stored listing with the lowest minimum price is selected
(deterministic lowest-price, oldest-first selection). -/
theorem C6_amended_candidate_and_selection :
    (∀ o l, instantMatchCandidate o l = true ↔
      (l.event = o.event ∧ l.sect ∈ o.sections ∧
       l.status = ListingStatus.active ∧ l.isLive = true ∧
       l.quantity ≤ o.quantity ∧
       ∃ m, l.minimumAcceptablePrice = some m ∧ m ≤ o.maxPrice)) ∧
    (∀ s o b, bestInstantListing s o = some b →
      ∃ l1 l2, s.listings.filter (instantMatchCandidate o) = l1 ++ b :: l2 ∧
        (∀ a ∈ l1, minKey b < minKey a) ∧
        (∀ a ∈ l2, minKey b ≤ minKey a)) := by
  constructor
  · intro o l
    unfold instantMatchCandidate
    cases hm : l.minimumAcceptablePrice with
    | none =>
      simp [hm, Bool.and_eq_true]
    | some m =>
      simp [hm, Bool.and_eq_true, beq_iff_eq, decide_eq_true_eq,
        List.elem_iff, and_assoc]
  · intro s o b h
    unfold bestInstantListing at h
    exact selectFirstMin_spec minKey _ b h

/-! ### Claim C7 -/

/-- The reverse candidate predicate as the claim words it, including the price
floor `maxPrice ≥ (minimumAcceptablePrice or askingPrice)` that the source
query does not contain. -/
def specAutoSellOfferCandidate (l : SellerListing) (o : BuyerOffer) : Bool :=
  o.event == l.event && o.sections.contains l.sect &&
  o.status == OfferStatus.active && decide (l.quantity ≤ o.quantity) &&
  (match l.minimumAcceptablePrice, l.askingPrice with
   | some m, _ => decide (m ≤ o.maxPrice)
   | none, some a => decide (a ≤ o.maxPrice)
   | none, none => false)

def c7Listing : SellerListing :=
  { id := 71, seller := 11, event := 2, sect := "B", row := none, seats := [],
    quantity := 1, askingPrice := some 170, minimumAcceptablePrice := some 150,
    isLive := true, goLiveAt := none,
    autoSell := { enabled := true, triggerTime := some 0, acceptHighestOffer := true },
    status := .active, deliveryMethod := "pdf" }

def c7Offer : BuyerOffer :=
  { id := 72, buyer := 21, event := 2, sections := ["B"], maxPrice := 1,
    quantity := 1, paymentIntentId := 0, status := .active,
    matchedListing := none, matchedAt := none, expiresAt := 1000 }

def c7Store : Store := ⟨[c7Offer], [c7Listing], []⟩

/-- C7 counterexample: the auto-sell query contains no price condition, so an
offer far below the listing's minimum acceptable price (maxPrice 1 against a
minimum of 150) is selected and the sweep settles at salePrice 1. -/
theorem C7_counterexample :
    specAutoSellOfferCandidate c7Listing c7Offer = false ∧
    c7Offer.maxPrice < 150 ∧
    autoSellOfferCandidate c7Listing c7Offer = true ∧
    bestOfferForListing c7Store c7Listing = some c7Offer ∧
    ((processAutoSellListing 0 c7Store c7Listing).transactions.map (·.salePrice))
      = [1] :=
  ⟨rfl, by decide, rfl, rfl, rfl⟩

/-- C7 (amended): the auto-sell sweep executes a match only when
`autoSell.enabled`, `autoSell.acceptHighestOffer`, `triggerTime ≤ now` and the
listing is `active`; a candidate offer needs only the same event, the
listing's section among its sections, status `active` and quantity at least
the listing's quantity — the source query has *no* price condition, so the
offer's `maxPrice` is not compared against the listing's minimum or asking
price.  Among candidates the earliest-stored offer with the highest `maxPrice`
is selected. -/
theorem C7_amended_no_price_floor :
    (∀ l o, autoSellOfferCandidate l o = true ↔
      (o.event = l.event ∧ l.sect ∈ o.sections ∧
       o.status = OfferStatus.active ∧ l.quantity ≤ o.quantity)) ∧
    (∀ s l b, bestOfferForListing s l = some b →
      ∃ l1 l2, s.offers.filter (autoSellOfferCandidate l) = l1 ++ b :: l2 ∧
        (∀ a ∈ l1, a.maxPrice < b.maxPrice) ∧
        (∀ a ∈ l2, a.maxPrice ≤ b.maxPrice)) ∧
    (∀ now (s : Store) l,
      ¬(l.autoSell.enabled = true ∧
        (∃ tt, l.autoSell.triggerTime = some tt ∧ tt ≤ now) ∧
        l.status = ListingStatus.active ∧
        l.autoSell.acceptHighestOffer = true) →
      processAutoSellListing now s l = s) := by
  refine ⟨?_, ?_, ?_⟩
  · intro l o
    unfold autoSellOfferCandidate
    simp [Bool.and_eq_true, beq_iff_eq, decide_eq_true_eq,
      List.elem_iff, and_assoc]
  · intro s l b h
    unfold bestOfferForListing at h
    obtain ⟨l1, l2, hsplit, hbefore, hafter⟩ :=
      selectFirstMin_spec (fun o => -o.maxPrice) _ b h
    refine ⟨l1, l2, hsplit, ?_, ?_⟩
    · intro a ha
      have := hbefore a ha
      simpa using this
    · intro a ha
      have := hafter a ha
      simpa using this
  · intro now s l hno
    unfold processAutoSellListing
    by_cases he : autoSellEligible now l
    · rw [if_pos he]
      unfold autoSellEligible at he
      simp only [Bool.and_eq_true] at he
      obtain ⟨⟨hen, htr⟩, hst⟩ := he
      unfold findBestOfferForListing
      cases bestOfferForListing s l with
      | none => rfl
      | some o =>
        dsimp only
        by_cases ha : l.autoSell.acceptHighestOffer
        · exfalso
          apply hno
          refine ⟨hen, ?_, by simpa using hst, ha⟩
          cases htt : l.autoSell.triggerTime with
          | none => rw [htt] at htr; exact absurd htr (by simp)
          | some tt =>
            rw [htt] at htr
            exact ⟨tt, rfl, by simpa using htr⟩
        · rw [if_neg ha]
    · rw [if_neg he]

/-! ### Claim C8 -/

/-- C8 counterexample: with no active offers and no transactions, the
suggested price is 0 as claimed, but against an event whose
`marketStats.averagePrice` is zero (or absent) the probability expression
divides zero by zero: the result is `NaN` (propagated through
`Math.max`/`Math.min`), not the neutral default 50. -/
theorem C8_counterexample :
    (calculateSuggestedPrice Store.init (some 0) 5 ["A"] 200).1 = 0 ∧
    (calculateSuggestedPrice Store.init (some 0) 5 ["A"] 200).2 = JsNum.nan ∧
    (calculateSuggestedPrice Store.init none 5 ["A"] 200).2 = JsNum.nan ∧
    JsNum.nan ≠ JsNum.num 50 := by
  refine ⟨?_, ?_, ?_, by decide⟩
  · show min (max ((0:ℚ) * (11/10)) ((0:ℚ) * (19/20))) 200 = 0
    norm_num
  · show calculateAcceptanceProbability
      (max ((0:ℚ) * (11/10)) ((0:ℚ) * (19/20))) (some 0) = JsNum.nan
    have h0 : max ((0:ℚ) * (11/10)) ((0:ℚ) * (19/20)) = 0 := by norm_num
    rw [h0]
    rfl
  · show calculateAcceptanceProbability
      (max ((0:ℚ) * (11/10)) ((0:ℚ) * (19/20))) none = JsNum.nan
    rfl

/-- C8 (amended): with no active offers and no matching transactions the
suggested price is 0; but when the event's average price is zero or absent the
acceptance probability is `NaN` (JavaScript's 0/0, propagated by
`Math.max`/`Math.min`), not 50.  When the average price is non-zero, the
probability is `50 + (p / averagePrice - 1) * 100` clamped to [10, 95], where
`p` is the *uncapped* suggested price. -/
theorem C8_amended_empty_market_nan :
    (∀ (s : Store) avg (eid : ℕ) secs (maxPrice : ℚ),
      s.offers.filter (pricingOfferQuery eid secs) = [] →
      s.transactions.filter (pricingTxQuery eid secs) = [] →
      0 ≤ maxPrice →
      (calculateSuggestedPrice s avg eid secs maxPrice).1 = 0 ∧
      ((avg = none ∨ avg = some 0) →
        (calculateSuggestedPrice s avg eid secs maxPrice).2 = JsNum.nan)) ∧
    (∀ (price a : ℚ), a ≠ 0 →
      calculateAcceptanceProbability price (some a) =
        JsNum.num (min 95 (max 10 (50 + (price / a - 1) * 100)))) := by
  constructor
  · intro s avg eid secs maxPrice hoff htx hmax
    unfold calculateSuggestedPrice
    rw [hoff, htx]
    dsimp only
    have hmean : meanOr0 (List.map (fun x => BuyerOffer.maxPrice x) []) = 0 := rfl
    have hmean2 : meanOr0 (List.map (fun x => Transaction.salePrice x) []) = 0 := rfl
    rw [hmean, hmean2]
    have hsug : max ((0:ℚ) * (11/10)) ((0:ℚ) * (19/20)) = 0 := by norm_num
    rw [hsug]
    refine ⟨min_eq_left hmax, ?_⟩
    rintro (rfl | rfl) <;> rfl
  · intro price a ha
    unfold calculateAcceptanceProbability jsDiv
    dsimp only
    rw [if_neg ha]
    rfl

/-! ### Claim C9 -/

def c9Listing : SellerListing :=
  { id := 91, seller := 4, event := 2, sect := "C", row := none, seats := [],
    quantity := 1, askingPrice := some 100, minimumAcceptablePrice := none,
    isLive := false, goLiveAt := none,
    autoSell := { enabled := false, triggerTime := none, acceptHighestOffer := true },
    status := .cancelled, deliveryMethod := "pdf" }

def c9Store : Store := ⟨[], [c9Listing], []⟩

def c9Req : ListingUpdateReq := { askingPrice := some 999 }

/-- C9 counterexample: the immutability guard only rejects `matched` and
`sold`; a `cancelled` listing is still updatable (the edit succeeds and
changes its askingPrice) and deletable (the delete reports success). -/
theorem C9_counterexample :
    c9Listing.status = ListingStatus.cancelled ∧
    (updateListing 4 91 c9Req c9Store).2 = Except.ok () ∧
    ((updateListing 4 91 c9Req c9Store).1.listings.map (·.askingPrice))
      = [some 999] ∧
    (deleteListing 4 91 c9Store).2 = Except.ok () :=
  ⟨rfl, rfl, rfl, rfl⟩

/-- C9 (amended): a listing whose status is `matched` or `sold` is immutable —
update and delete are rejected with an error and the store is unchanged; a
`cancelled` listing, however, is *not* protected by the guard. -/
theorem C9_amended_immutable_matched_sold (s : Store) (sellerId listingId : ℕ)
    (u : ListingUpdateReq) (l : SellerListing)
    (hf : s.listings.find? (fun l => l.id == listingId && l.seller == sellerId)
      = some l)
    (hst : l.status = .matched ∨ l.status = .sold) :
    updateListing sellerId listingId u s
      = (s, Except.error "Cannot update listing in current status") ∧
    deleteListing sellerId listingId s
      = (s, Except.error "Cannot delete listing in current status") := by
  constructor
  · unfold updateListing
    rw [hf]
    dsimp only
    rw [if_pos hst]
  · unfold deleteListing
    rw [hf]
    dsimp only
    rw [if_pos hst]

def c9mListing : SellerListing := { c9Listing with id := 92, status := .matched }

def c9mStore : Store := ⟨[], [c9mListing], []⟩

theorem C9_amended_immutable_matched_sold_witness :
    c9mStore.listings.find? (fun l => l.id == 92 && l.seller == 4)
      = some c9mListing ∧
    (c9mListing.status = .matched ∨ c9mListing.status = .sold) ∧
    (updateListing 4 92 c9Req c9mStore
      = (c9mStore, Except.error "Cannot update listing in current status") ∧
     deleteListing 4 92 c9mStore
      = (c9mStore, Except.error "Cannot delete listing in current status")) :=
  ⟨rfl, Or.inl rfl,
    C9_amended_immutable_matched_sold c9mStore 4 92 c9Req c9mListing rfl
      (Or.inl rfl)⟩

/-! ### Claim C10 -/

/-- C10: for a listing that is not `matched`/`sold` — in particular an
`active`, live one — a successful update supplying a (truthy) `goLiveAt`
resets the listing to status `draft` with `isLive = false`, so a live listing
re-enters the non-live draft state via an edit. -/
theorem C10_goLiveAt_resets_to_draft (s : Store) (sellerId listingId : ℕ)
    (u : ListingUpdateReq) (l : SellerListing) (d : ℤ)
    (hf : s.listings.find? (fun l => l.id == listingId && l.seller == sellerId)
      = some l)
    (hst : ¬(l.status = .matched ∨ l.status = .sold))
    (hg : u.goLiveAt = some (some d)) :
    (updateListing sellerId listingId u s).2 = Except.ok () ∧
    ∀ x ∈ (updateListing sellerId listingId u s).1.listings,
      x.id = listingId →
      x.status = ListingStatus.draft ∧ x.isLive = false := by
  unfold updateListing
  rw [hf]
  dsimp only
  rw [if_neg hst, hg]
  refine ⟨rfl, ?_⟩
  intro x hx hxid
  dsimp only at hx
  obtain ⟨x0, hx0, rfl⟩ := List.mem_map.mp hx
  by_cases hb : x0.id == listingId
  · simp [hb]
  · simp only [hb, Bool.false_eq_true, if_false] at hxid ⊢
    exact absurd hxid (by simpa using hb)

def c10Listing : SellerListing :=
  { id := 93, seller := 4, event := 2, sect := "C", row := none, seats := [],
    quantity := 1, askingPrice := some 100, minimumAcceptablePrice := none,
    isLive := true, goLiveAt := none,
    autoSell := { enabled := false, triggerTime := none, acceptHighestOffer := true },
    status := .active, deliveryMethod := "pdf" }

def c10Store : Store := ⟨[], [c10Listing], []⟩

def c10Req : ListingUpdateReq := { goLiveAt := some (some 50) }

theorem C10_goLiveAt_resets_to_draft_witness :
    c10Store.listings.find? (fun l => l.id == 93 && l.seller == 4)
      = some c10Listing ∧
    ¬(c10Listing.status = .matched ∨ c10Listing.status = .sold) ∧
    c10Req.goLiveAt = some (some 50) ∧
    c10Listing.status = ListingStatus.active ∧ c10Listing.isLive = true ∧
    ((updateListing 4 93 c10Req c10Store).2 = Except.ok () ∧
     ∀ x ∈ (updateListing 4 93 c10Req c10Store).1.listings,
       x.id = 93 → x.status = ListingStatus.draft ∧ x.isLive = false) :=
  ⟨rfl, by decide, rfl, rfl, rfl,
    C10_goLiveAt_resets_to_draft c10Store 4 93 c10Req c10Listing 50 rfl
      (by decide) rfl⟩

end AutoMatch
